import Mathlib

/-!
Verification of the Hermes notification server (hermes_server) against its
natural-language specification.  The Python sources are shallowly embedded:
webhook payloads become a `Json` inductive, Python dictionary access and
`str` methods become `Except`-valued helpers (a Python exception is an
`Except.error`), and the asynchronous network calls (`get_user_groups`,
`get_user_avatar_b64`, `httpx.post`) are abstracted as function parameters
that deliver the data those calls would return.
-/

namespace Hermes

/-- A JSON value as delivered in an Azure DevOps webhook payload.
Python dicts keep insertion order, so objects are association lists. -/
inductive Json where
  | null : Json
  | bool (b : Bool) : Json
  | num (n : Int) : Json
  | str (s : String) : Json
  | arr (elts : List Json) : Json
  | obj (fields : List (String × Json)) : Json

mutual

/-- Structural equality on JSON values (Python `==` restricted to the
value shapes a webhook payload can contain). -/
def Json.beq : Json → Json → Bool
  | .null, .null => true
  | .bool a, .bool b => a == b
  | .num a, .num b => a == b
  | .str a, .str b => a == b
  | .arr a, .arr b => Json.beqList a b
  | .obj a, .obj b => Json.beqFields a b
  | _, _ => false

def Json.beqList : List Json → List Json → Bool
  | [], [] => true
  | a :: as1, b :: bs1 => Json.beq a b && Json.beqList as1 bs1
  | _, _ => false

def Json.beqFields : List (String × Json) → List (String × Json) → Bool
  | [], [] => true
  | (k1, v1) :: as1, (k2, v2) :: bs1 =>
    k1 == k2 && Json.beq v1 v2 && Json.beqFields as1 bs1
  | _, _ => false

end

instance : BEq Json := ⟨Json.beq⟩

/-- Python truthiness (`if x:`): `None`, `False`, `0`, `""`, `[]` and
`{}` are falsy, everything else is truthy. -/
def Json.truthy : Json → Bool
  | .null => false
  | .bool b => b
  | .num n => if n = 0 then false else true
  | .str s => if s = "" then false else true
  | .arr [] => false
  | .arr (_ :: _) => true
  | .obj [] => false
  | .obj (_ :: _) => true

/-- First value stored under a key in an object field list (dict keys are
unique in Python, so first match is the match). -/
def Json.lookupField : List (String × Json) → String → Option Json
  | [], _ => none
  | (k, v) :: t, key => if k = key then some v else Json.lookupField t key

/-- Python `d.get(k)`: `None` when the key is absent; raises
`AttributeError` when the receiver is not a dict. -/
def Json.get (j : Json) (k : String) : Except String Json :=
  match j with
  | .obj fs => .ok ((Json.lookupField fs k).getD .null)
  | _ => .error "AttributeError: get on non-dict"

/-- Python `d.get(k, default)`. A key stored with value `None` yields
`None`, not the default. -/
def Json.getD (j : Json) (k : String) (d : Json) : Except String Json :=
  match j with
  | .obj fs => .ok ((Json.lookupField fs k).getD d)
  | _ => .error "AttributeError: get on non-dict"

/-- Substring test on strings (Python `pat in s`). -/
def strContainsSub (s pat : String) : Bool :=
  (List.range (s.data.length + 1)).any (fun i => pat.data.isPrefixOf (s.data.drop i))

/-- Python `k in j` for the container types that support it: key test on
dicts, substring test on strings, element test on lists; `TypeError`
otherwise. -/
def Json.hasKey (j : Json) (k : String) : Except String Bool :=
  match j with
  | .obj fs => .ok ((Json.lookupField fs k).isSome)
  | .str s => .ok (strContainsSub s k)
  | .arr xs => .ok (xs.contains (Json.str k))
  | _ => .error "TypeError: in on unsupported type"

/-- A value on which a `str` method (`.replace`, `.lower`, ...) is invoked
must actually be a string; otherwise Python raises `AttributeError`. -/
def Json.asStr : Json → Except String String
  | .str s => .ok s
  | _ => .error "AttributeError: expected str"

/-- Unpacking `*xs` requires a list here; non-list truthy values make the
surrounding code raise (string/dict iteration also ends in a raise as soon
as a non-dict element reaches `_mentions`), which this embedding folds
into one error. -/
def Json.asArr : Json → Except String (List Json)
  | .arr xs => .ok xs
  | _ => .error "TypeError: expected list"

/-- Python `str(x)` / f-string interpolation.  Container reprs are
approximated by placeholders; no claim inspects such a body text. -/
def Json.pyStr : Json → String
  | .null => "None"
  | .bool b => if b then "True" else "False"
  | .num n => toString n
  | .str s => s
  | .arr _ => "<list>"
  | .obj _ => "<dict>"

/-- Python `a or b` (on already-computed values). -/
def pyOr (a b : Json) : Json := if a.truthy then a else b

/-- Python `str.lower()` (character-wise, which matches `str.lower` on
the ASCII data these fields carry). -/
def pyLower (s : String) : String := (s.data.map Char.toLower).asString

/-- Fuelled worker for `pyReplace` (the fuel is the input length, enough
because every step consumes at least one character). -/
def replaceGo (pat rep : List Char) : Nat → List Char → List Char
  | 0, s => s
  | _ + 1, [] => []
  | fuel + 1, c :: rest =>
    if pat.isPrefixOf (c :: rest) then
      rep ++ replaceGo pat rep fuel ((c :: rest).drop pat.length)
    else
      c :: replaceGo pat rep fuel rest

/-- Python `s.replace(pat, rep)`: replace every (non-overlapping,
leftmost-first) occurrence.  The formatter only calls it with non-empty
literal patterns. -/
def pyReplace (s pat rep : String) : String :=
  if pat.data = [] then s else (replaceGo pat.data rep.data s.data.length s.data).asString

/-- Python `s.strip()`: drop leading and trailing whitespace. -/
def pyStrip (s : String) : String :=
  (((s.data.dropWhile Char.isWhitespace).reverse.dropWhile Char.isWhitespace).reverse).asString

/-- Approximation of Python `str.title()` used only inside display
strings: capitalise the first letter of each alphabetic run. -/
def pyTitle (s : String) : String :=
  (s.data.foldl
    (fun (acc : List Char × Bool) c =>
      if c.isAlpha then
        (acc.1 ++ [if acc.2 then c else c.toUpper], true)
      else
        (acc.1 ++ [c], false))
    ([], false)).1.asString

/-- The `mentions` dict of a notification
(`formatter.py`, module docstring): identity ids and display names. -/
structure Mentions where
  user_ids : List Json
  names : List Json

/-- Loop body of `formatter._mentions` (`formatter.py` lines 38-48) with
its three accumulators (`seen`, `user_ids`, `names`) made explicit. -/
def mentionsGo (idents : List Json) (actor_id : Json) (seen uids names : List Json) :
    Except String Mentions :=
  match idents with
  | [] => .ok ⟨uids, names⟩
  | ident :: rest =>
    if ident.truthy = false then
      mentionsGo rest actor_id seen uids names
    else do
      let idv ← ident.get "id"
      let uid ←
        if idv.truthy then pure idv
        else ident.getD "uniqueName" (.str "")
      let name ← ident.getD "displayName" (.str "")
      if !uid.truthy || Json.beq uid actor_id || seen.contains uid then
        mentionsGo rest actor_id seen uids names
      else
        mentionsGo rest actor_id (seen ++ [uid]) (uids ++ [uid])
          (if name.truthy then names ++ [name] else names)

/-- `formatter._mentions`: build a mentions dict from identity dicts,
excluding the actor, empty ids and duplicates. -/
def mentionsJ (idents : List Json) (actor_id : Json) : Except String Mentions :=
  mentionsGo idents actor_id [] [] []

/-- `formatter._clean_url` applied to the chosen url value.  A falsy url
becomes `""`; raw `/_apis/` urls (without `/_workitems`) are dropped.
Non-string truthy url values are modelled as an error (such values never
occur in ADO payloads). -/
def cleanUrl (u : Json) : Except String String :=
  if u.truthy = false then .ok ""
  else match u with
    | .str s =>
      .ok (if strContainsSub s "/_apis/" = true ∧ strContainsSub s "/_workitems" = false
           then "" else s)
    | _ => .error "TypeError: non-string url"

/-- A formatted toast notification as assembled by `formatter.py`.
Fields that always receive string literals in the source are `String`;
fields that can carry arbitrary payload values stay `Json`. -/
structure Notification where
  event_type : String
  heading : String
  body : String
  url : String
  project : Json
  avatar_b64 : Option String
  status_image : Option String
  actor : Json
  actor_id : Json
  mentions : Mentions
  meta : List (String × Json)

/-- Event types routed to `_format_pr` (`formatter.py` lines 65-70). -/
def prEvents : List String :=
  ["git.pullrequest.created", "git.pullrequest.updated", "git.pullrequest.merged",
   "ms.vss-code.git-pullrequest-comment-event"]

/-- Event types routed to `_format_workitem` (`formatter.py` lines 73-79). -/
def workitemEvents : List String :=
  ["workitem.created", "workitem.updated", "workitem.commented",
   "workitem.resolved", "workitem.closed"]

/-- Event types routed to `_format_pipeline` (`formatter.py` lines 82-87). -/
def pipelineEvents : List String :=
  ["build.complete", "ms.vss-release.release-created-event",
   "ms.vss-release.deployment-completed-event", "ms.vss-release.release-abandoned-event"]

/-- The url preference chain of `_format_pr` (`formatter.py` lines
115-119): `url or remoteUrl or _links.web.href` with Python `or`
short-circuiting on falsy values. -/
def prUrlChain (pr : Json) : Except String Json := do
  let u1 ← pr.get "url"
  if u1.truthy then pure u1
  else do
    let u2 ← pr.get "remoteUrl"
    if u2.truthy then pure u2
    else do
      let links ← pr.getD "_links" (.obj [])
      let web ← links.getD "web" (.obj [])
      web.getD "href" (.str "")

/-- `formatter._format_pr`.  `avatarFn` abstracts the network call
`get_user_avatar_b64` (its result for a given actor id). -/
def formatPr (avatarFn : Json → Option String) (event_type : String)
    (resource : Json) (project : Json) : Except String Notification := do
  let hasPrId ← resource.hasKey "pullRequestId"
  let pr ← if hasPrId then pure resource else resource.getD "pullRequest" resource
  let pr_id ← pr.getD "pullRequestId" (.str "")
  let title ← pr.getD "title" (.str "Pull Request")
  let repoObj ← pr.getD "repository" (.obj [])
  let repo ← repoObj.getD "name" (.str "")
  let sourceJ ← pr.getD "sourceRefName" (.str "")
  let source := pyReplace (← sourceJ.asStr) "refs/heads/" ""
  let targetJ ← pr.getD "targetRefName" (.str "")
  let target := pyReplace (← targetJ.asStr) "refs/heads/" ""
  let url ← prUrlChain pr
  let status ← pr.getD "status" (.str "")
  let created_by ← pr.getD "createdBy" (.obj [])
  let reviewersJ ← pr.getD "reviewers" (.arr [])
  let reviewers ← reviewersJ.asArr
  let branch : String × String × Option String × Json × Json × Mentions ←
    if event_type = "ms.vss-code.git-pullrequest-comment-event" then do
      let commentObj ← resource.getD "comment" (.obj [])
      let comment_author ← commentObj.getD "author" (.obj [])
      let actor_name ← comment_author.getD "displayName" (.str "Someone")
      let actor_id ← comment_author.get "id"
      let body := "💬 " ++ actor_name.pyStr ++ " commented on PR #" ++ pr_id.pyStr
        ++ ": " ++ title.pyStr
      let mentioned ← mentionsJ (created_by :: reviewers) actor_id
      pure (("PR Comment", body, some "pr comment", actor_name, actor_id, mentioned))
    else if event_type = "git.pullrequest.created" then do
      let actor_name ← created_by.getD "displayName" (.str "Someone")
      let actor_id ← created_by.get "id"
      let body := actor_name.pyStr ++ " opened PR #" ++ pr_id.pyStr ++ " in "
        ++ repo.pyStr ++ "\n" ++ source ++ " → " ++ target
      let mentioned ← mentionsJ reviewers actor_id
      pure (("New Pull Request", body, some "new pr", actor_name, actor_id, mentioned))
    else if event_type = "git.pullrequest.merged" then do
      let merged_by ← resource.getD "closedBy" created_by
      let actor_name ← merged_by.getD "displayName" (.str "Someone")
      let actor_id ← merged_by.get "id"
      let body := "PR #" ++ pr_id.pyStr ++ " merged in " ++ repo.pyStr ++ "\n" ++ title.pyStr
      -- Notify reviewers, and always include the PR author, even when they
      -- merged their own PR (`formatter.py` lines 149-157).
      let m ← mentionsJ reviewers actor_id
      let author_id ← created_by.get "id"
      let mentioned ←
        if author_id.truthy && !m.user_ids.contains author_id then do
          let author_name ← created_by.getD "displayName" (.str "")
          pure (Mentions.mk (m.user_ids ++ [author_id])
            (if author_name.truthy && !m.names.contains author_name
             then m.names ++ [author_name] else m.names))
        else pure m
      pure (("PR Merged", body, some "pr merged", actor_name, actor_id, mentioned))
    else do
      -- any other pull-request event type falls into the `updated` branch
      let actor_name ← created_by.getD "displayName" (.str "Someone")
      let actor_id ← created_by.get "id"
      let body := "PR #" ++ pr_id.pyStr ++ " updated (" ++ status.pyStr ++ "): " ++ title.pyStr
      let mentioned ← mentionsJ reviewers actor_id
      pure (("PR Updated", body, some "pr updated", actor_name, actor_id, mentioned))
  let (heading, body, status_image, actor_name, actor_id, mentioned) := branch
  let avatar := avatarFn actor_id
  let urlClean ← cleanUrl url
  pure {
    event_type := "pr", heading := heading, body := body, url := urlClean,
    project := project, avatar_b64 := avatar, status_image := status_image,
    actor := actor_name, actor_id := actor_id, mentions := mentioned,
    meta := [("pr_id", pr_id), ("repo", repo), ("status", status)] }

/-- `isinstance(x, dict)` test used by `_format_workitem`. -/
def Json.isObj : Json → Bool
  | .obj _ => true
  | _ => false

/-- `formatter._format_workitem`. -/
def formatWorkitem (avatarFn : Json → Option String) (event_type : String)
    (resource : Json) (project : Json) : Except String Notification := do
  let fields ← resource.getD "fields" (.obj [])
  let wi_id ← resource.getD "id" (.str "")
  let wi_type ← fields.getD "System.WorkItemType" (.str "Work Item")
  let wi_title ← fields.getD "System.Title" (.str "Untitled")
  let assigned_to_raw ← fields.getD "System.AssignedTo" (.obj [])
  let assigned_to_name ←
    if assigned_to_raw.isObj then assigned_to_raw.get "displayName"
    else pure (Json.str (pyOr assigned_to_raw (.str "")).pyStr)
  let changed_by_raw ← fields.getD "System.ChangedBy" (.obj [])
  let actor_name ←
    if changed_by_raw.isObj then changed_by_raw.get "displayName"
    else pure (Json.str (pyOr changed_by_raw (.str "Someone")).pyStr)
  let actor_id ←
    if changed_by_raw.isObj then changed_by_raw.get "id" else pure .null
  let url0 ← resource.getD "url" (.str "")
  let hasApis ← url0.hasKey "/_apis/"
  let url ←
    if hasApis then do
      let s ← url0.asStr
      pure (Json.str (pyReplace s "/_apis/wit/workItems/" "/_workitems/edit/"))
    else pure url0
  let state ← fields.getD "System.State" (.str "")
  let (heading, body) ←
    if event_type = "workitem.created" then do
      let base := actor_name.pyStr ++ " created " ++ wi_type.pyStr ++ " #"
        ++ wi_id.pyStr ++ ": " ++ wi_title.pyStr
      let body := if assigned_to_name.truthy
        then base ++ "\nAssigned to: " ++ assigned_to_name.pyStr else base
      pure ("New " ++ wi_type.pyStr, body)
    else if event_type = "workitem.commented" then
      pure (wi_type.pyStr ++ " Comment",
        actor_name.pyStr ++ " commented on " ++ wi_type.pyStr ++ " #"
          ++ wi_id.pyStr ++ ": " ++ wi_title.pyStr)
    else if event_type = "workitem.resolved" ∨ event_type = "workitem.closed" then do
      let stateS ← state.asStr
      pure (wi_type.pyStr ++ " " ++ state.pyStr,
        actor_name.pyStr ++ " " ++ pyLower stateS ++ " " ++ wi_type.pyStr ++ " #"
          ++ wi_id.pyStr ++ ": " ++ wi_title.pyStr)
    else do
      let base := "✏" ++ actor_name.pyStr ++ " updated " ++ wi_type.pyStr ++ " #"
        ++ wi_id.pyStr ++ ": " ++ wi_title.pyStr
      let body := if state.truthy then base ++ " [" ++ state.pyStr ++ "]" else base
      pure (wi_type.pyStr ++ " Updated", body)
  let status_image ←
    if event_type = "workitem.commented" then pure "workitem comment"
    else do
      let t ← wi_type.asStr
      pure (pyLower t)
  let avatar := avatarFn actor_id
  let mentioned ← mentionsJ [if assigned_to_raw.isObj then assigned_to_raw else .null]
    actor_id
  let urlClean ← cleanUrl url
  pure {
    event_type := "workitem", heading := heading, body := body, url := urlClean,
    project := project, avatar_b64 := avatar, status_image := some status_image,
    actor := actor_name, actor_id := actor_id, mentions := mentioned,
    meta := [("wi_id", wi_id), ("wi_type", wi_type), ("state", state),
             ("assigned_to", assigned_to_name)] }

/-- `_BUILD_STATUS_IMAGE.get(result)` (`formatter.py` lines 278-284). -/
def buildStatusImage (result : String) : Option String :=
  if result = "succeeded" then some "success"
  else if result = "failed" then some "failure"
  else if result = "canceled" then some "cancelled"
  else if result = "cancelled" then some "cancelled"
  else if result = "partiallysucceeded" then some "failure"
  else none

/-- `_DEPLOY_STATUS_IMAGE.get(status)` (`formatter.py` lines 286-292). -/
def deployStatusImage (status : String) : Option String :=
  if status = "succeeded" then some "success"
  else if status = "rejected" then some "failure"
  else if status = "failed" then some "failure"
  else if status = "canceled" then some "cancelled"
  else if status = "cancelled" then some "cancelled"
  else none

/-- `formatter._format_pipeline`. -/
def formatPipeline (avatarFn : Json → Option String) (event_type : String)
    (resource : Json) (project : Json) : Except String Notification := do
  let branch : String × String × Option String × Json × Json × Json × Mentions ←
    if event_type = "build.complete" then do
      let build_id ← resource.getD "id" (.str "")
      let build_num ← resource.getD "buildNumber" (.str build_id.pyStr)
      let defObj ← resource.getD "definition" (.obj [])
      let definition ← defObj.getD "name" (.str "Pipeline")
      let resultJ ← resource.getD "result" (.str "unknown")
      let result := pyLower (← resultJ.asStr)
      let requested_for ← resource.getD "requestedFor" (.obj [])
      let actor_name ← requested_for.getD "displayName" (.str "Someone")
      let actor_id ← requested_for.get "id"
      let url ← do
        let links ← resource.getD "_links" (.obj [])
        let web ← links.getD "web" (.obj [])
        let href ← web.get "href"
        if href.truthy then pure href else resource.getD "url" (.str "")
      let heading := "Build "
        ++ pyTitle (pyReplace result "partiallysucceeded" "partially succeeded")
      let body := definition.pyStr ++ " #" ++ build_num.pyStr ++ " " ++ result
        ++ "\nTriggered by: " ++ actor_name.pyStr
      -- Always notify the person who triggered the build (actor_id=None here).
      let mentioned ← mentionsJ [requested_for] .null
      pure (heading, body, buildStatusImage result, actor_name, actor_id, url, mentioned)
    else if event_type = "ms.vss-release.release-created-event" then do
      let rel_name ← resource.getD "name" (.str "Release")
      let defObj ← resource.getD "releaseDefinition" (.obj [])
      let definition ← defObj.getD "name" (.str "")
      let created_by ← resource.getD "createdBy" (.obj [])
      let actor_name ← created_by.getD "displayName" (.str "Someone")
      let actor_id ← created_by.get "id"
      let linksObj ← resource.getD "_links" (.obj [])
      let webObj ← linksObj.getD "web" (.obj [])
      let url ← webObj.getD "href" (.str "")
      let base := actor_name.pyStr ++ " created " ++ rel_name.pyStr
      let body := if definition.truthy
        then base ++ " (" ++ definition.pyStr ++ ")" else base
      let mentioned ← mentionsJ [] actor_id
      pure ("Release Created", body, none, actor_name, actor_id, url, mentioned)
    else if event_type = "ms.vss-release.deployment-completed-event" then do
      let env ← resource.getD "environment" (.obj [])
      let env_name ← env.getD "name" (.str "Environment")
      let relObj ← resource.getD "release" (.obj [])
      let rel_name ← relObj.getD "name" (.str "Release")
      let statusJ ← env.getD "status" (.str "unknown")
      let deploy_status := pyLower (← statusJ.asStr)
      let deployment ← resource.getD "deployment" (.obj [])
      let requested_for ← deployment.getD "requestedFor" (.obj [])
      let actor_name ← requested_for.getD "displayName" (.str "Someone")
      let actor_id ← requested_for.get "id"
      let relObj2 ← resource.getD "release" (.obj [])
      let linksObj ← relObj2.getD "_links" (.obj [])
      let webObj ← linksObj.getD "web" (.obj [])
      let url ← webObj.getD "href" (.str "")
      let heading := "Deployment " ++ pyTitle deploy_status
      let body := rel_name.pyStr ++ " → " ++ env_name.pyStr ++ ": " ++ deploy_status
      let mentioned ← mentionsJ [requested_for] .null
      pure (heading, body, deployStatusImage deploy_status, actor_name, actor_id,
        url, mentioned)
    else if event_type = "ms.vss-release.release-abandoned-event" then do
      let rel_name ← resource.getD "name" (.str "Release")
      let modified_by ← resource.getD "modifiedBy" (.obj [])
      let actor_name ← modified_by.getD "displayName" (.str "Someone")
      let actor_id ← modified_by.get "id"
      let linksObj ← resource.getD "_links" (.obj [])
      let webObj ← linksObj.getD "web" (.obj [])
      let url ← webObj.getD "href" (.str "")
      let body := actor_name.pyStr ++ " abandoned " ++ rel_name.pyStr
      let mentioned ← mentionsJ [] actor_id
      pure ("Release Abandoned", body, some "cancelled", actor_name, actor_id,
        url, mentioned)
    else
      pure ("Pipeline Event", "Pipeline event: " ++ event_type, none,
        Json.str "System", .null, Json.str "", ⟨[], []⟩)
  let (heading, body, status_image, actor_name, actor_id, url, mentioned) := branch
  let avatar := avatarFn actor_id
  let urlClean ← cleanUrl url
  pure {
    event_type := "pipeline", heading := heading, body := body, url := urlClean,
    project := project, avatar_b64 := avatar, status_image := status_image,
    actor := actor_name, actor_id := actor_id, mentions := mentioned,
    meta := [("raw_event", Json.str event_type)] }

/-- The `try` body of `formatter.format_webhook` (`formatter.py` lines
57-91): extract `resource` and the project, route on the event type,
return `none` for unhandled event types. -/
def formatBody (avatarFn : Json → Option String) (event_type : String)
    (payload : Json) : Except String (Option Notification) := do
  let resource ← payload.getD "resource" (.obj [])
  let rcs ← payload.getD "resourceContainers" (.obj [])
  let projObj ← rcs.getD "project" (.obj [])
  let projName ← projObj.get "name"
  let project ←
    if projName.truthy then pure projName
    else resource.getD "teamProject" (.str "")
  if event_type ∈ prEvents then do
    let n ← formatPr avatarFn event_type resource project
    pure (some n)
  else if event_type ∈ workitemEvents then do
    let n ← formatWorkitem avatarFn event_type resource project
    pure (some n)
  else if event_type ∈ pipelineEvents then do
    let n ← formatPipeline avatarFn event_type resource project
    pure (some n)
  else
    pure none

/-- `formatter.format_webhook`: the `try`/`except` wrapper that turns any
formatting exception into `None`. -/
def formatWebhook (avatarFn : Json → Option String) (event_type : String)
    (payload : Json) : Option Notification :=
  match formatBody avatarFn event_type payload with
  | .ok o => o
  | .error _ => none

/-!  Dispatcher (`dispatcher.py`) and client registry (`database.py`,
`routers/clients.py`).  `uuid.uuid4()` id generation is modelled by a
monotone counter: each registration draws a fresh natural number, which
captures exactly the property the code relies on (new ids never collide
with stored ones). -/

/-- A registered client record (`database.make_client`). -/
structure ClientRec where
  id : Nat
  name : String
  callback_url : String
  ado_user_id : String
  display_name : String
  subscriptions : List String
  active : Bool
  registered_at : String
  last_seen : Option String
deriving DecidableEq, Repr

/-- The value `ado_client.get_user_groups` returns: the Python dict
`{"ids": [...], "names": [...]}` of the group memberships reported by the
ADO Identity service. -/
structure GroupsData where
  ids : List String
  names : List String
deriving DecidableEq, Repr

/-- Iterating a Python dict (`for group in client_groups:`) yields its
keys.  `get_user_groups` always returns a dict with exactly the keys
`"ids"` and `"names"`, inserted in that order (`ado_client.py` lines 72,
77), so this is what the dispatcher's group loop actually ranges over. -/
def GroupsData.dictKeys (_g : GroupsData) : List String := ["ids", "names"]

/-- `[n.lower() for n in mentions.get("names", [])]`: lowering raises on
a non-string entry. -/
def lowerNames : List Json → Except String (List String)
  | [] => .ok []
  | j :: rest => do
    let s ← j.asStr
    let tl ← lowerNames rest
    .ok (pyLower s :: tl)

/-- `dispatcher._client_is_relevant`.  `groupsFn` abstracts the network
call `get_user_groups` (the groups the Identity service reports for a
given user id). -/
def clientIsRelevant (groupsFn : String → GroupsData) (client : ClientRec)
    (n : Notification) : Except String Bool :=
  let subs := client.subscriptions
  let event_type := n.event_type
  if event_type ∉ subs ∧ "all" ∉ subs then .ok false
  else if event_type = "manual" then .ok true
  else do
    let client_uid := client.ado_user_id
    let actor_id := n.actor_id
    let mentioned_user_ids := n.mentions.user_ids
    let mentioned_names ← lowerNames n.mentions.names
    if (actor_id.truthy && (client_uid != "") && Json.beq actor_id (.str client_uid)) &&
        !(mentioned_user_ids.contains (.str client_uid)) then
      .ok false
    else if mentioned_user_ids.isEmpty && mentioned_names.isEmpty then
      .ok true
    else if (client_uid != "") && mentioned_user_ids.contains (.str client_uid) then
      .ok true
    else if (client_uid != "") && !mentioned_names.isEmpty then
      .ok ((groupsFn client_uid).dictKeys.any
        (fun group => mentioned_names.contains (pyLower group)))
    else
      .ok false

/-- Outcome of the `httpx` POST inside `dispatcher._send`: either a 2xx
response, or an exception `e` with `str(e) = msg` (a non-2xx status makes
`raise_for_status` raise, so it is also a `failure`; network errors such
as `httpx.ReadTimeout` can carry an empty message). -/
inductive PostOutcome where
  | ok2xx
  | failure (msg : String)
deriving DecidableEq, Repr

/-- A delivery log entry (`database.make_log_entry`; the random `id`
field is omitted — nothing observes it). -/
structure LogEntry where
  client_id : Nat
  event_type : String
  payload : Notification
  success : Bool
  error : Option String
  sent_at : String

/-- What one `dispatcher._send` call does: the client record it saves (if
any) and the log entry it appends. -/
structure SendResult where
  savedClient : Option ClientRec
  log : LogEntry

/-- `dispatcher._send` for one client: on 2xx update `last_seen` and save;
on failure leave the record alone; always append exactly one log entry. -/
def sendModel (client : ClientRec) (n : Notification) (outcome : PostOutcome)
    (now : String) : SendResult :=
  match outcome with
  | .ok2xx =>
    { savedClient := some { client with last_seen := some now },
      log := { client_id := client.id, event_type := n.event_type, payload := n,
               success := true, error := none, sent_at := now } }
  | .failure msg =>
    { savedClient := none,
      log := { client_id := client.id, event_type := n.event_type, payload := n,
               success := false, error := some msg, sent_at := now } }

/-- `dispatcher.dispatch`: filter active clients, evaluate relevance for
each, send to the relevant ones.  `outcome` gives each client's POST
outcome; exceptions inside `_send` are caught per client
(`gather(..., return_exceptions=True)` plus the `try` in `_send`), so one
entry is produced per relevant client. -/
def dispatchModel (groupsFn : String → GroupsData) (outcome : ClientRec → PostOutcome)
    (now : String) (clients : List ClientRec) (n : Notification) :
    Except String (List SendResult) := do
  let relevance ← (clients.filter (fun c => c.active)).mapM
    (fun c => clientIsRelevant groupsFn c n)
  pure (((((clients.filter (fun c => c.active)).zip relevance).filter
    (fun p => p.2)).map (fun p => p.1)).map (fun c => sendModel c n (outcome c) now))

/-- The relevance-filtered target list of a dispatch (helper for stating
that each target is handled independently). -/
def relevantTargets (groupsFn : String → GroupsData) (clients : List ClientRec)
    (n : Notification) : Except String (List ClientRec) := do
  let relevance ← (clients.filter (fun c => c.active)).mapM
    (fun c => clientIsRelevant groupsFn c n)
  pure ((((clients.filter (fun c => c.active)).zip relevance).filter
    (fun p => p.2)).map (fun p => p.1))

/-- `clients.json` content: a Python dict keyed by client id (insertion
ordered, unique keys). -/
abbrev Store := List (Nat × ClientRec)

/-- `data[k] = v` on a Python dict: replace the value at an existing key
in place, otherwise append at the end. -/
def dictInsert : Store → Nat → ClientRec → Store
  | [], k, v => [(k, v)]
  | (k1, v1) :: t, k, v =>
    if k1 = k then (k, v) :: t else (k1, v1) :: dictInsert t k v

/-- `k in data` / `data.get(k)` on the registry dict. -/
def dictLookup : Store → Nat → Option ClientRec
  | [], _ => none
  | (k1, v1) :: t, k => if k1 = k then some v1 else dictLookup t k

/-- `database.get_client_by_callback`: first stored record (in insertion
order) whose `callback_url` matches. -/
def getClientByCallback : Store → String → Option ClientRec
  | [], _ => none
  | (_, c) :: t, url => if c.callback_url = url then some c else getClientByCallback t url

/-- `database.delete_client`: soft delete.  `False` when the id is
unknown; otherwise set `active = False` (the record itself stays). -/
def deleteClient (s : Store) (id : Nat) : Bool × Store :=
  match dictLookup s id with
  | none => (false, s)
  | some c => (true, dictInsert s id { c with active := false })

/-- Body of a `POST /clients/register` request (`routers/clients.py`,
`RegisterRequest`). -/
structure RegisterRequest where
  name : String
  callback_url : String
  ado_user_id : String
  display_name : String
  subscriptions : List String

/-- Registry state: the stored dict plus the id counter that models
`uuid.uuid4()` freshness. -/
structure RegState where
  nextId : Nat
  clients : Store

/-- `database.make_client`. -/
def makeClient (id : Nat) (req : RegisterRequest) (now : String) : ClientRec :=
  { id := id, name := req.name, callback_url := req.callback_url,
    ado_user_id := req.ado_user_id, display_name := req.display_name,
    subscriptions := req.subscriptions, active := true,
    registered_at := now, last_seen := none }

/-- `routers/clients.register_client`: re-registering with a stored
`callback_url` updates that record in place (`existing.update(...)` keeps
`id`, `callback_url`, `registered_at`, `last_seen`); otherwise a new
record with a fresh id is created. -/
def registerClient (st : RegState) (req : RegisterRequest) (now : String) :
    RegState × ClientRec :=
  match getClientByCallback st.clients req.callback_url with
  | some c =>
    let c2 := { c with
                name := req.name
                ado_user_id := req.ado_user_id
                display_name := req.display_name
                subscriptions := req.subscriptions
                active := true }
    ({ st with clients := dictInsert st.clients c.id c2 }, c2)
  | none =>
    let c := makeClient st.nextId req now
    ({ nextId := st.nextId + 1, clients := dictInsert st.clients st.nextId c }, c)

/-- `routers/clients.update_subscriptions`: replace the subscription list
of a stored client (unknown ids leave the registry unchanged — the
router answers 404). -/
def updateSubscriptions (st : RegState) (id : Nat) (subs : List String) : RegState :=
  match dictLookup st.clients id with
  | none => st
  | some c =>
    { st with clients := dictInsert st.clients id { c with subscriptions := subs } }

/-- The registry operations claim C5 quantifies over. -/
inductive RegOp where
  | register (req : RegisterRequest) (now : String)
  | updateSubs (id : Nat) (subs : List String)

def applyOp (st : RegState) : RegOp → RegState
  | .register req now => (registerClient st req now).1
  | .updateSubs id subs => updateSubscriptions st id subs

/-- Run a sequence of operations from the empty registry. -/
def applyOps (ops : List RegOp) : RegState :=
  ops.foldl applyOp { nextId := 0, clients := [] }

/-!  Webhook endpoint (`routers/webhooks.py`). -/

/-- Response of `POST /webhooks/ado`: 401, 400, or 200 with
`{"status": "accepted", "eventType": ...}`. -/
inductive WebhookResponse where
  | unauthorized
  | badRequest
  | accepted (eventType : Json)

/-- `webhooks._verify_secret`.  `hmacHex secret body` abstracts the hex
HMAC-SHA1 digest of the raw body under the secret; `compare_digest` is
plain string equality (it only changes the timing, not the result).  An
unset secret (`None` or `""`) disables the check, and a falsy signature
header is rejected outright. -/
def verifySecret (hmacHex : String → String → String) (secret : String)
    (body : String) (signature : Option String) : Bool :=
  if secret = "" then true
  else match signature with
    | none => false
    | some s => if s = "" then false else ("sha1=" ++ hmacHex secret body) = s

/-- `webhooks.receive_webhook`.  The JSON parse of the raw body is
abstracted: `payload` is the parsed body, `body` the raw bytes the
signature covers.  The returned list holds the `(event_type, payload)`
tasks handed to `asyncio.create_task(_process(...))` — they are scheduled,
not awaited, so the response never depends on what `format_webhook` or
`dispatch` later do with them. -/
def receiveWebhook (hmacHex : String → String → String) (secret : String)
    (body : String) (signature : Option String) (payload : Json) :
    Except String (WebhookResponse × List (Json × Json)) := do
  if ¬ verifySecret hmacHex secret body signature then
    pure (.unauthorized, [])
  else do
    let event_type ← payload.getD "eventType" (.str "")
    if event_type.truthy = false then
      pure (.badRequest, [])
    else
      pure (.accepted event_type, [(event_type, payload)])

/-!  Log reading (`database.get_logs`). -/

/-- `database._log_files_newest_first`: the active log, then the rolled
files in ascending suffix order, keeping only paths that exist. -/
def logFilesNewestFirst (existsFile : String → Bool) (logFile : String)
    (backupCount : Nat) : List String :=
  (logFile :: (List.range' 1 backupCount).map (fun i => logFile ++ "." ++ toString i)).filter
    existsFile

/-- One filter of `get_logs`: `if f and entry.get(key) != f: continue`.
A `None` (or empty) filter matches everything; a set filter reads the
entry's field (raising on non-dict entries, as the code does) and
compares. -/
def logFilterMatches (flt : Option String) (key : String) (entry : Json) :
    Except String Bool :=
  match flt with
  | none => .ok true
  | some f =>
    if f = "" then .ok true
    else do
      let v ← entry.get key
      .ok (Json.beq v (.str f))

/-- The per-line loop of `get_logs` over one file's lines (already
reversed): strip, skip blanks, parse (`parse` abstracts `json.loads`,
`none` = `JSONDecodeError`, silently skipped), apply filters, append, and
return early (`Bool` flag) once `len(entries) >= limit`. -/
def logsGoLines (parse : String → Option Json) (limit : Nat)
    (etF cidF : Option String) : List String → List Json →
    Except String (List Json × Bool)
  | [], acc => .ok (acc, false)
  | l :: rest, acc =>
    let t := pyStrip l
    if t = "" then logsGoLines parse limit etF cidF rest acc
    else match parse t with
      | none => logsGoLines parse limit etF cidF rest acc
      | some entry => do
        let m1 ← logFilterMatches etF "event_type" entry
        if !m1 then logsGoLines parse limit etF cidF rest acc
        else do
          let m2 ← logFilterMatches cidF "client_id" entry
          if !m2 then logsGoLines parse limit etF cidF rest acc
          else
            let acc2 := acc ++ [entry]
            if acc2.length ≥ limit then .ok (acc2, true)
            else logsGoLines parse limit etF cidF rest acc2

/-- The per-file loop of `get_logs`. -/
def logsGoFiles (parse : String → Option Json) (limit : Nat)
    (etF cidF : Option String) : List (List String) → List Json →
    Except String (List Json)
  | [], acc => .ok acc
  | lines :: restFiles, acc => do
    let (acc2, stop) ← logsGoLines parse limit etF cidF lines.reverse acc
    if stop then .ok acc2
    else logsGoFiles parse limit etF cidF restFiles acc2

/-- `database.get_logs`, over the contents of the files listed by
`_log_files_newest_first` (each file given as its list of lines in file
order). -/
def getLogs (parse : String → Option Json) (files : List (List String))
    (limit : Nat) (etF cidF : Option String) : Except String (List Json) :=
  logsGoFiles parse limit etF cidF files []

/-- The filtered entry stream `get_logs` draws from, without the limit:
every file newest-first, lines reversed, blanks and unparseable lines
skipped, filters applied. -/
def logsFilteredStream (parse : String → Option Json)
    (etF cidF : Option String) : List String → Except String (List Json)
  | [] => .ok []
  | l :: rest =>
    let t := pyStrip l
    if t = "" then logsFilteredStream parse etF cidF rest
    else match parse t with
      | none => logsFilteredStream parse etF cidF rest
      | some entry => do
        let m1 ← logFilterMatches etF "event_type" entry
        if !m1 then logsFilteredStream parse etF cidF rest
        else do
          let m2 ← logFilterMatches cidF "client_id" entry
          if !m2 then logsFilteredStream parse etF cidF rest
          else do
            let tl ← logsFilteredStream parse etF cidF rest
            .ok (entry :: tl)

/-!  Concrete sample data used by closed theorems (mirroring the payload
shapes of the repository's own test-suite). -/

/-- A registered client, as `database.make_client` stores it. -/
def exampleClient (uid : String) (subs : List String) : ClientRec :=
  { id := 1, name := "Test Client", callback_url := "http://host:9000/notify",
    ado_user_id := uid, display_name := "Alice", subscriptions := subs,
    active := true, registered_at := "2026-01-01T00:00:00+00:00", last_seen := none }

/-- A formatted notification with the given routing-relevant fields. -/
def exampleNotification (et : String) (actor : Json) (uids names : List Json) :
    Notification :=
  { event_type := et, heading := "Test", body := "Test body", url := "",
    project := .str "Proj", avatar_b64 := none, status_image := none,
    actor := .str "X", actor_id := actor, mentions := ⟨uids, names⟩, meta := [] }

/-- A pull-request resource carrying all three url variants. -/
def mkPrUrlResource (u r w : String) : Json :=
  .obj [("pullRequestId", .num 1), ("title", .str "T"),
    ("status", .str "active"), ("repository", .obj [("name", .str "R")]),
    ("sourceRefName", .str ""), ("targetRefName", .str ""),
    ("url", .str u), ("remoteUrl", .str r),
    ("_links", .obj [("web", .obj [("href", .str w)])]),
    ("createdBy", .obj [("id", .str "a"), ("displayName", .str "A")]),
    ("reviewers", .arr [])]

/-- The url field of the notification `_format_pr` builds for a
`git.pullrequest.created` payload. -/
def prResultUrl (res : Json) : Option String :=
  match formatPr (fun _ => none) "git.pullrequest.created" res (.str "P") with
  | .ok n => some n.url
  | .error _ => none

/-- A `git.pullrequest.merged` resource in which one user is author,
sole reviewer, and merger (`closedBy`) at once. -/
def mkSelfMergedResource (uid : String) : Json :=
  .obj [("pullRequestId", .num 42), ("title", .str "Add feature X"),
    ("status", .str "completed"), ("repository", .obj [("name", .str "MyRepo")]),
    ("sourceRefName", .str "refs/heads/feature"), ("targetRefName", .str "refs/heads/main"),
    ("url", .str "http://ado/pr/42"),
    ("createdBy", .obj [("id", .str uid), ("displayName", .str "Alice")]),
    ("reviewers", .arr [.obj [("id", .str uid), ("displayName", .str "Alice")]]),
    ("closedBy", .obj [("id", .str uid), ("displayName", .str "Alice")])]

/-- The same merged resource without a `closedBy` field. -/
def mkMergedNoClosedBy (uid : String) : Json :=
  .obj [("pullRequestId", .num 42), ("title", .str "Add feature X"),
    ("status", .str "completed"), ("repository", .obj [("name", .str "MyRepo")]),
    ("sourceRefName", .str "refs/heads/feature"), ("targetRefName", .str "refs/heads/main"),
    ("url", .str "http://ado/pr/42"),
    ("createdBy", .obj [("id", .str uid), ("displayName", .str "Alice")]),
    ("reviewers", .arr [])]

/-- A merged resource where Carol (`merger-id`) merges Alice's PR that
Bob reviewed. -/
def mkMergedByCarol : Json :=
  .obj [("pullRequestId", .num 42), ("title", .str "Add feature X"),
    ("status", .str "completed"), ("repository", .obj [("name", .str "MyRepo")]),
    ("sourceRefName", .str "refs/heads/feature"), ("targetRefName", .str "refs/heads/main"),
    ("url", .str "http://ado/pr/42"),
    ("createdBy", .obj [("id", .str "author-id"), ("displayName", .str "Alice")]),
    ("reviewers", .arr [.obj [("id", .str "reviewer-id"), ("displayName", .str "Bob")]]),
    ("closedBy", .obj [("id", .str "merger-id"), ("displayName", .str "Carol")])]

/-- The id an identity dict contributes: its `id`, falling back to
`uniqueName` when `id` is falsy. -/
def identUid (fs : List (String × Json)) : Json :=
  let v := (Json.lookupField fs "id").getD .null
  if v.truthy then v else (Json.lookupField fs "uniqueName").getD (.str "")

/-- The display name of an identity dict (empty string when absent). -/
def identName (fs : List (String × Json)) : Json :=
  (Json.lookupField fs "displayName").getD (.str "")

/-- Declarative transcription of the claimed `mentions` contract, with
the already-seen ids as an explicit parameter: every identity dict
contributes its id (fallback `uniqueName`) in first-appearance order;
identities that are falsy, have a falsy id, repeat the actor's id, or
repeat an already-seen id contribute nothing; an identity's
`displayName` is recorded exactly when it is truthy and the identity's
id was accepted. -/
def mentionsContractGo (actor : Json) : List Json → List Json → Mentions
  | [], _ => ⟨[], []⟩
  | i :: rest, seen =>
    match i with
    | .obj fs =>
      let uid := identUid fs
      let nm := identName fs
      if !uid.truthy || Json.beq uid actor || seen.contains uid then
        mentionsContractGo actor rest seen
      else
        let m := mentionsContractGo actor rest (seen ++ [uid])
        ⟨uid :: m.user_ids, if nm.truthy then nm :: m.names else m.names⟩
    | _ => mentionsContractGo actor rest seen

/-- The claimed `mentions` contract from the top (no ids seen yet). -/
def mentionsContract (idents : List Json) (actor : Json) : Mentions :=
  mentionsContractGo actor idents []

/-- An argument `_mentions` can process without raising: either falsy
(skipped) or a dict. -/
def WellFormedIdent (j : Json) : Prop := j.truthy = false ∨ j.isObj = true

/-- Event types `format_webhook` routes to a handler. -/
def HandledEvent (et : String) : Prop :=
  et ∈ prEvents ∨ et ∈ workitemEvents ∨ et ∈ pipelineEvents

instance (et : String) : Decidable (HandledEvent et) := by
  unfold HandledEvent; infer_instance

/-- Representation invariant of the stored registry dict: unique keys,
each record's `id` equals its key, pairwise-distinct callback urls, and
all keys below the id counter. -/
structure RegInv (st : RegState) : Prop where
  nodup : (st.clients.map Prod.fst).Nodup
  keyid : ∀ p ∈ st.clients, (p : Nat × ClientRec).2.id = p.1
  urls : st.clients.Pairwise (fun a b => a.2.callback_url ≠ b.2.callback_url)
  bound : ∀ p ∈ st.clients, (p : Nat × ClientRec).1 < st.nextId

/-!  Claim C1 — group-name routing. -/

/-- C1: the claim states that with `mentions = {user_ids: [], names:
["Backend Team"]}` and the Identity service reporting groups
`["Backend Team"]` for the client's user id, `_client_is_relevant`
returns true.  The code instead iterates the groups *dict* returned by
`get_user_groups`, which yields only its keys `"ids"` and `"names"`, so
the group-name comparison never sees the group names and the predicate
returns false — contradicting the dispatcher's docstring, the spec, and
the repository's own tests (`test_group_member_receives_notification`). -/
theorem c1_group_mention_returns_false :
    clientIsRelevant (fun _ => ⟨[], ["Backend Team"]⟩)
      (exampleClient "X" ["pr"])
      (exampleNotification "pr" .null [] [.str "Backend Team"]) = .ok false := rfl

/-!  Claim C9 — soft delete. -/

theorem dictLookup_dictInsert_self (s : Store) (k : Nat) (v : ClientRec) :
    dictLookup (dictInsert s k v) k = some v := by
  induction s with
  | nil => simp [dictInsert, dictLookup]
  | cons hd t ih =>
    obtain ⟨k1, v1⟩ := hd
    by_cases h : k1 = k
    · simp [dictInsert, dictLookup, h]
    · simp [dictInsert, dictLookup, h, ih]

theorem dictInsert_of_lookup_eq (s : Store) (k : Nat) (v : ClientRec)
    (h : dictLookup s k = some v) : dictInsert s k v = s := by
  induction s with
  | nil => simp [dictLookup] at h
  | cons hd t ih =>
    obtain ⟨k1, v1⟩ := hd
    by_cases hk : k1 = k
    · simp [dictLookup, hk] at h
      simp [dictInsert, hk, h]
    · simp [dictLookup, hk] at h
      simp [dictInsert, hk, ih h]

theorem length_dictInsert_of_lookup (s : Store) (k : Nat) (v c : ClientRec)
    (h : dictLookup s k = some c) : (dictInsert s k v).length = s.length := by
  induction s with
  | nil => simp [dictLookup] at h
  | cons hd t ih =>
    obtain ⟨k1, v1⟩ := hd
    by_cases hk : k1 = k
    · simp [dictInsert, hk]
    · simp [dictLookup, hk] at h
      simp [dictInsert, hk, ih h]

theorem length_dictInsert_of_none (s : Store) (k : Nat) (v : ClientRec)
    (h : dictLookup s k = none) : (dictInsert s k v).length = s.length + 1 := by
  induction s with
  | nil => simp [dictInsert]
  | cons hd t ih =>
    obtain ⟨k1, v1⟩ := hd
    by_cases hk : k1 = k
    · simp [dictLookup, hk] at h
    · simp [dictLookup, hk] at h
      simp [dictInsert, hk, ih h]

/-- C9: `delete_client` returns false exactly when the id is unknown (and
then changes nothing); otherwise it sets `active := false` and returns
true; it is idempotent (a second delete gives the same answer and the
same registry); and it never removes a record, so the stored record count
is unchanged. -/
theorem c9_delete_client_soft_idempotent (s : Store) (id : Nat) :
    ((deleteClient s id).1 = false ↔ dictLookup s id = none) ∧
    (dictLookup s id = none → (deleteClient s id).2 = s) ∧
    (∀ c, dictLookup s id = some c →
       (deleteClient s id).1 = true ∧
       dictLookup (deleteClient s id).2 id = some { c with active := false }) ∧
    deleteClient (deleteClient s id).2 id = deleteClient s id ∧
    (deleteClient s id).2.length = s.length := by
  refine ⟨?_, ?_, ?_, ?_, ?_⟩
  · unfold deleteClient
    cases h : dictLookup s id <;> simp [h]
  · intro h; simp [deleteClient, h]
  · intro c h
    simp [deleteClient, h, dictLookup_dictInsert_self]
  · unfold deleteClient
    cases h : dictLookup s id with
    | none => simp [h]
    | some c =>
      simp only
      rw [dictLookup_dictInsert_self]
      simp only
      have : { c with active := false } = ({ { c with active := false } with active := false} : ClientRec) := rfl
      rw [dictInsert_of_lookup_eq _ _ _ (dictLookup_dictInsert_self s id { c with active := false })]
  · unfold deleteClient
    cases h : dictLookup s id with
    | none => simp
    | some c => simpa using length_dictInsert_of_lookup s id { c with active := false } c h

/-- Witness for C9 at a concrete registry: deleting the stored id 1
succeeds and flips `active`. -/
theorem c9_delete_client_soft_idempotent_witness :
    (deleteClient [(1, exampleClient "u" ["pr"])] 1).1 = true ∧
    dictLookup (deleteClient [(1, exampleClient "u" ["pr"])] 1).2 1 =
      some { exampleClient "u" ["pr"] with active := false } :=
  (c9_delete_client_soft_idempotent [(1, exampleClient "u" ["pr"])] 1).2.2.1
    (exampleClient "u" ["pr"]) rfl

/-!  Claim C4 — webhook endpoint gate. -/

/-- C4: with a configured secret, a missing or mismatched
`X-Hub-Signature` yields 401; otherwise an empty or absent `eventType`
yields 400; otherwise 200 `{status: "accepted", eventType}` with the
format-and-dispatch work scheduled as a pending background task (returned
unevaluated next to the response) rather than awaited. -/
theorem c4_webhook_endpoint (hmacHex : String → String → String)
    (secret body : String) (signature : Option String) (payload : Json) :
    (secret ≠ "" →
       (signature = none ∨ ∀ sg, signature = some sg → sg ≠ "sha1=" ++ hmacHex secret body) →
       receiveWebhook hmacHex secret body signature payload = .ok (.unauthorized, [])) ∧
    ((secret = "" ∨ signature = some ("sha1=" ++ hmacHex secret body)) →
       ∀ et, payload.getD "eventType" (.str "") = .ok et →
         (et.truthy = false →
            receiveWebhook hmacHex secret body signature payload = .ok (.badRequest, [])) ∧
         (et.truthy = true →
            receiveWebhook hmacHex secret body signature payload =
              .ok (.accepted et, [(et, payload)]))) := by
  constructor
  · intro hs hsig
    have hv : verifySecret hmacHex secret body signature = false := by
      rcases hsig with h | h
      · simp [verifySecret, hs, h]
      · cases signature with
        | none => simp [verifySecret, hs]
        | some sg =>
          have hne := h sg rfl
          by_cases hz : sg = ""
          · simp [verifySecret, hs, hz]
          · simp [verifySecret, hs, hz]
            exact fun hEq => hne hEq.symm
    simp [receiveWebhook, hv, pure, Except.pure]
  · intro hok et het
    have hv : verifySecret hmacHex secret body signature = true := by
      rcases hok with h | h
      · simp [verifySecret, h]
      · by_cases hs : secret = ""
        · simp [verifySecret, hs]
        · have : ("sha1=" ++ hmacHex secret body) ≠ "" := by
            intro hx
            have h5 : ("sha1=" ++ hmacHex secret body).length = 0 := by rw [hx]; rfl
            rw [String.length_append] at h5
            have h6 : "sha1=".length = 5 := rfl
            omega
          simp [verifySecret, hs, h, this]
    constructor
    · intro hf
      simp [receiveWebhook, hv, het, hf, pure, Except.pure, bind, Except.bind]
    · intro ht
      simp [receiveWebhook, hv, het, ht, pure, Except.pure, bind, Except.bind]

/-- Witness for C4: with no secret configured, a payload with a non-empty
`eventType` is accepted and the processing task is scheduled. -/
theorem c4_webhook_endpoint_witness :
    receiveWebhook (fun _ _ => "mac") "" "body" none (.obj [("eventType", .str "pr")]) =
      .ok (.accepted (.str "pr"), [(.str "pr", .obj [("eventType", .str "pr")])]) :=
  ((c4_webhook_endpoint (fun _ _ => "mac") "" "body" none
      (.obj [("eventType", .str "pr")])).2 (Or.inl rfl) (.str "pr") rfl).2 rfl

/-!  Claim C3 — per-client delivery and logging. -/

/-- C3 counterexample: a delivery failure whose exception carries an
empty message (for instance `httpx.ReadTimeout`, whose `str` is empty) is
logged with `success = false` but with an *empty* error string — the
claim's "non-empty error string" does not hold on the code, which logs
`str(e)` verbatim. -/
theorem c3_empty_error_string_counterexample :
    (sendModel (exampleClient "u1" ["pr"]) (exampleNotification "pr" .null [] [])
        (.failure "") "t1").log.success = false ∧
    (sendModel (exampleClient "u1" ["pr"]) (exampleNotification "pr" .null [] [])
        (.failure "") "t1").log.error = some "" ∧
    ∀ s, (sendModel (exampleClient "u1" ["pr"]) (exampleNotification "pr" .null [] [])
        (.failure "") "t1").log.error = some s → s.length = 0 := by
  refine ⟨rfl, rfl, ?_⟩
  intro s hs
  have h0 : some "" = some s := hs
  cases h0
  rfl

/-- C3 (amended): on a 2xx response `_send` saves the client with
`last_seen := now` and logs success with no error; on an exception or
non-2xx response it saves nothing and logs failure with error `str(e)` —
which is empty exactly when the exception's message is empty; each
attempt yields exactly one log entry; and a dispatch handles every
relevant client independently: the result is one `SendResult` per
relevant client, each depending only on that client's own outcome. -/
theorem c3_send_updates_and_logs (client : ClientRec) (n : Notification) (now : String) :
    ((sendModel client n .ok2xx now).savedClient =
        some { client with last_seen := some now } ∧
     (sendModel client n .ok2xx now).log.success = true ∧
     (sendModel client n .ok2xx now).log.error = none ∧
     (sendModel client n .ok2xx now).log.client_id = client.id) ∧
    (∀ msg, (sendModel client n (.failure msg) now).savedClient = none ∧
       (sendModel client n (.failure msg) now).log.success = false ∧
       (sendModel client n (.failure msg) now).log.error = some msg ∧
       (sendModel client n (.failure msg) now).log.client_id = client.id) ∧
    (∀ groupsFn outcome clients ts,
       relevantTargets groupsFn clients n = .ok ts →
         dispatchModel groupsFn outcome now clients n =
           .ok (ts.map (fun c => sendModel c n (outcome c) now))) := by
  refine ⟨⟨rfl, rfl, rfl, rfl⟩, fun msg => ⟨rfl, rfl, rfl, rfl⟩, ?_⟩
  intro groupsFn outcome clients ts hts
  unfold dispatchModel
  unfold relevantTargets at hts
  cases h : (clients.filter (fun c => c.active)).mapM
      (fun c => clientIsRelevant groupsFn c n) with
  | error e =>
    rw [h] at hts
    simp [bind, Except.bind] at hts
  | ok rels =>
    rw [h] at hts
    simp only [bind, Except.bind, pure, Except.pure] at hts ⊢
    cases hts
    rfl

/-- Witness for C3 (amended): a concrete dispatch to one broadcast
subscriber whose POST fails still yields exactly its one failure log. -/
theorem c3_send_updates_and_logs_witness :
    dispatchModel (fun _ => ⟨[], []⟩) (fun _ => .failure "Connection refused") "t1"
        [exampleClient "u1" ["pr"]] (exampleNotification "pr" .null [] []) =
      .ok ([exampleClient "u1" ["pr"]].map
        (fun c => sendModel c (exampleNotification "pr" .null [] [])
          (.failure "Connection refused") "t1")) :=
  (c3_send_updates_and_logs (exampleClient "u1" ["pr"])
      (exampleNotification "pr" .null [] []) "t1").2.2
    (fun _ => ⟨[], []⟩) (fun _ => .failure "Connection refused")
    [exampleClient "u1" ["pr"]] [exampleClient "u1" ["pr"]] rfl

/-!  Claim C6 — PR url preference and cleaning. -/

/-- C6 counterexample: with `url`, `remoteUrl` and `_links.web.href` all
present and distinct, `_format_pr` picks `url` — not `_links.web.href` as
the claim states: the code's preference order is `url` → `remoteUrl` →
`_links.web.href`. -/
theorem c6_url_preference_counterexample :
    prResultUrl (mkPrUrlResource "http://h/url" "http://h/remote" "http://h/web") =
      some "http://h/url" ∧
    "http://h/url" ≠ "http://h/web" := ⟨rfl, by decide⟩

/-- C6 (amended): `_format_pr` chooses the url preferring `url`, then
`remoteUrl`, then `_links.web.href` — the reverse of the claimed order —
and `_clean_url` then maps the chosen url to the empty string exactly
when it contains `/_apis/` without `/_workitems` (an empty chosen url
stays empty).  The composite is also evaluated on representative
payloads: a falsy `url` falls back to `remoteUrl`, both falsy fall back
to the web link, and a chosen raw API url is wiped. -/
theorem c6_url_preference_and_cleaning (u r w : String) :
    (prUrlChain (mkPrUrlResource u r w) =
       .ok (if u = "" then (if r = "" then .str w else .str r) else .str u)) ∧
    (∀ s : String, cleanUrl (.str s) =
       .ok (if s = "" then ""
            else if strContainsSub s "/_apis/" = true ∧
                strContainsSub s "/_workitems" = false then "" else s)) ∧
    prResultUrl (mkPrUrlResource "" "http://h/remote" "http://h/web") =
      some "http://h/remote" ∧
    prResultUrl (mkPrUrlResource "" "" "http://h/web") = some "http://h/web" ∧
    prResultUrl (mkPrUrlResource "http://h/_apis/x" "http://h/remote" "http://h/web") =
      some "" := by
  refine ⟨?_, ?_, rfl, rfl, rfl⟩
  · simp only [prUrlChain, mkPrUrlResource, Json.get, Json.getD, Json.lookupField,
      Json.truthy, bind, Except.bind, pure, Except.pure]
    by_cases hu : u = "" <;> by_cases hr : r = "" <;>
      simp [hu, hr, Json.lookupField, Json.getD]
  · intro sv
    by_cases hs : sv = "" <;> simp [cleanUrl, Json.truthy, hs]

/-!  Claim C2 — merged pull requests notify the author, even when the
author merged their own PR. -/

theorem json_beq_str (a b : String) : ((Json.str a) == (Json.str b)) = (a == b) := rfl

/-- C2: for `git.pullrequest.merged` the actor is `closedBy` (falling
back to `createdBy` when `closedBy` is absent), mentions are the
reviewers minus the actor with the PR author's id then always added, and
a client whose `ado_user_id` equals both the actor id and the author id
(subscribed to "pr") is still found relevant — the explicit mention
overrides actor self-suppression.  Shown on a self-merge where the author
is also the sole reviewer (so the reviewer pass contributes nothing and
only the author-append step puts them in), on a merge without `closedBy`
(actor falls back to `createdBy`), and on a third-party merge (actor is
the merger, mentions are reviewer then author). -/
theorem c2_merged_self_notifies_author (uid : String) (h : uid ≠ "") :
    ((formatPr (fun _ => none) "git.pullrequest.merged" (mkSelfMergedResource uid)
        (.str "P")).map (fun n => (n.actor_id, n.mentions.user_ids)) =
      .ok (.str uid, [.str uid])) ∧
    ((formatPr (fun _ => none) "git.pullrequest.merged" (mkSelfMergedResource uid)
        (.str "P")).map (fun n =>
          clientIsRelevant (fun _ => ⟨[], []⟩) (exampleClient uid ["pr"]) n) =
      .ok (.ok true)) ∧
    ((formatPr (fun _ => none) "git.pullrequest.merged" (mkMergedNoClosedBy uid)
        (.str "P")).map (fun n => n.actor_id) = .ok (.str uid)) ∧
    ((formatPr (fun _ => none) "git.pullrequest.merged" mkMergedByCarol
        (.str "P")).map (fun n => (n.actor_id, n.mentions.user_ids)) =
      .ok (.str "merger-id", [.str "reviewer-id", .str "author-id"])) := by
  refine ⟨?_, ?_, ?_, ?_⟩
  · simp [formatPr, prUrlChain, mkSelfMergedResource, Json.getD, Json.get, Json.hasKey,
      Json.lookupField, Json.asStr, Json.asArr, Json.truthy, mentionsJ, mentionsGo,
      Json.beq, cleanUrl, pyOr, pyReplace, strContainsSub, bind, Except.bind,
      pure, Except.pure, Except.map, h]
  · simp [formatPr, prUrlChain, mkSelfMergedResource, Json.getD, Json.get, Json.hasKey,
      Json.lookupField, Json.asStr, Json.asArr, Json.truthy, mentionsJ, mentionsGo,
      Json.beq, cleanUrl, pyOr, pyReplace, strContainsSub, bind, Except.bind,
      pure, Except.pure, Except.map, h, clientIsRelevant, exampleClient, lowerNames,
      pyLower, GroupsData.dictKeys, json_beq_str]
  · simp [formatPr, prUrlChain, mkMergedNoClosedBy, Json.getD, Json.get, Json.hasKey,
      Json.lookupField, Json.asStr, Json.asArr, Json.truthy, mentionsJ, mentionsGo,
      Json.beq, cleanUrl, pyOr, pyReplace, strContainsSub, bind, Except.bind,
      pure, Except.pure, Except.map, h]
  · rfl

/-- Witness for C2 at the concrete author id used by the repository's
tests. -/
theorem c2_merged_self_notifies_author_witness :
    (formatPr (fun _ => none) "git.pullrequest.merged"
        (mkSelfMergedResource "author-id") (.str "P")).map
      (fun n => (n.actor_id, n.mentions.user_ids)) =
      .ok (.str "author-id", [.str "author-id"]) :=
  (c2_merged_self_notifies_author "author-id" (by decide)).1

/-!  Claim C7 — the `_mentions` construction contract. -/

theorem mentionsGo_cons_obj (fs : List (String × Json)) (rest : List Json)
    (actor : Json) (seen uids names : List Json) (ht : (Json.obj fs).truthy = true) :
    mentionsGo (Json.obj fs :: rest) actor seen uids names =
      (if !(identUid fs).truthy || Json.beq (identUid fs) actor ||
          seen.contains (identUid fs) then
        mentionsGo rest actor seen uids names
      else
        mentionsGo rest actor (seen ++ [identUid fs]) (uids ++ [identUid fs])
          (if (identName fs).truthy then names ++ [identName fs] else names)) := by
  rw [show mentionsGo (Json.obj fs :: rest) actor seen uids names =
    (if (Json.obj fs).truthy = false then
      mentionsGo rest actor seen uids names
    else do
      let idv ← (Json.obj fs).get "id"
      let uid ←
        if idv.truthy then pure idv
        else (Json.obj fs).getD "uniqueName" (.str "")
      let name ← (Json.obj fs).getD "displayName" (.str "")
      if !uid.truthy || Json.beq uid actor || seen.contains uid then
        mentionsGo rest actor seen uids names
      else
        mentionsGo rest actor (seen ++ [uid]) (uids ++ [uid])
          (if name.truthy then names ++ [name] else names)) from rfl]
  rw [ht]
  simp only [Bool.true_eq_false, if_false, Json.get, Json.getD, bind, Except.bind,
    pure, Except.pure]
  by_cases hu : (((Json.lookupField fs "id").getD Json.null).truthy : Bool) <;>
    simp [hu, identUid, identName]

theorem mentionsGo_eq_contract (actor : Json) :
    ∀ (idents : List Json) (seen uids names : List Json),
      (∀ i ∈ idents, WellFormedIdent i) →
      mentionsGo idents actor seen uids names =
        .ok ⟨uids ++ (mentionsContractGo actor idents seen).user_ids,
             names ++ (mentionsContractGo actor idents seen).names⟩ := by
  intro idents
  induction idents with
  | nil => intro seen uids names _; simp [mentionsGo, mentionsContractGo]
  | cons i rest ih =>
    intro seen uids names h
    have hi : WellFormedIdent i := h i (by simp)
    have hrest : ∀ j ∈ rest, WellFormedIdent j := fun j hj => h j (by simp [hj])
    by_cases ht : i.truthy = false
    · have hc : mentionsContractGo actor (i :: rest) seen =
          mentionsContractGo actor rest seen := by
        cases i with
        | obj fs =>
          cases fs with
          | nil => simp [mentionsContractGo, identUid, Json.lookupField, Json.truthy]
          | cons p t => simp [Json.truthy] at ht
        | _ => simp [mentionsContractGo]
      rw [hc]
      have hskip : mentionsGo (i :: rest) actor seen uids names =
          mentionsGo rest actor seen uids names := by
        cases i <;> simp_all [mentionsGo, Json.truthy]
      rw [hskip]
      exact ih seen uids names hrest
    · rcases hi with hf | hobj
      · exact absurd hf ht
      · have hfs : ∃ fs, i = Json.obj fs := by
          cases i <;> simp_all [Json.isObj]
        obtain ⟨fs, rfl⟩ := hfs
        rw [mentionsGo_cons_obj fs rest actor seen uids names
          (by simpa using Bool.of_not_eq_false ht)]
        rw [show mentionsContractGo actor (Json.obj fs :: rest) seen =
          (if !(identUid fs).truthy || Json.beq (identUid fs) actor ||
              seen.contains (identUid fs) then
            mentionsContractGo actor rest seen
          else
            let m := mentionsContractGo actor rest (seen ++ [identUid fs])
            ⟨identUid fs :: m.user_ids,
             if (identName fs).truthy then identName fs :: m.names else m.names⟩)
          from rfl]
        by_cases hskip : (!(identUid fs).truthy || Json.beq (identUid fs) actor ||
            seen.contains (identUid fs) : Bool)
        · rw [if_pos hskip, if_pos hskip]
          exact ih seen uids names hrest
        · have hskipf : (!(identUid fs).truthy || Json.beq (identUid fs) actor ||
              seen.contains (identUid fs)) = false := by
            simpa using hskip
          simp only [hskipf, Bool.false_eq_true, if_false, ite_false]
          rw [ih (seen ++ [identUid fs]) (uids ++ [identUid fs])
            (if (identName fs).truthy then names ++ [identName fs] else names) hrest]
          by_cases hn : ((identName fs).truthy : Bool) <;>
            simp [hn, List.append_assoc]

/-- C7: for identity arguments `_mentions` can process without raising
(falsy ones or dicts), `_mentions` computes exactly the claimed
contract: ids (falling back to `uniqueName`) in first-appearance order,
with empty ids, the actor's id and duplicates contributing nothing, and
`displayName` recorded exactly when non-empty and the id was accepted. -/
theorem c7_mentions_contract (idents : List Json) (actor : Json)
    (h : ∀ i ∈ idents, WellFormedIdent i) :
    mentionsJ idents actor = .ok (mentionsContract idents actor) := by
  have := mentionsGo_eq_contract actor idents [] [] [] h
  simpa [mentionsJ, mentionsContract] using this

/-- Witness for C7 on a mixed concrete list: a `None` entry, a plain
identity, a duplicate, an actor entry and a `uniqueName` fallback. -/
theorem c7_mentions_contract_witness :
    mentionsJ
      [Json.null,
       .obj [("id", .str "u1"), ("displayName", .str "Alice")],
       .obj [("id", .str "u1"), ("displayName", .str "Alice")],
       .obj [("id", .str "actor"), ("displayName", .str "Actor")],
       .obj [("uniqueName", .str "bob@corp.com"), ("displayName", .str "Bob")],
       .obj [("id", .str "u3")]]
      (.str "actor") =
      .ok (mentionsContract
        [Json.null,
         .obj [("id", .str "u1"), ("displayName", .str "Alice")],
         .obj [("id", .str "u1"), ("displayName", .str "Alice")],
         .obj [("id", .str "actor"), ("displayName", .str "Actor")],
         .obj [("uniqueName", .str "bob@corp.com"), ("displayName", .str "Bob")],
         .obj [("id", .str "u3")]]
        (.str "actor")) :=
  c7_mentions_contract _ _ (by
    intro i hi
    simp only [List.mem_cons, List.not_mem_nil, or_false] at hi
    rcases hi with rfl | rfl | rfl | rfl | rfl | rfl <;>
      simp [WellFormedIdent, Json.isObj, Json.truthy])

/-!  Claim C10 — `format_webhook` is total. -/

theorem formatBody_unhandled (avatarFn : Json → Option String) (et : String)
    (payload : Json) (h : ¬ HandledEvent et) :
    formatBody avatarFn et payload = .ok none ∨
      ∃ e, formatBody avatarFn et payload = .error e := by
  have h1 : et ∉ prEvents := fun hx => h (Or.inl hx)
  have h2 : et ∉ workitemEvents := fun hx => h (Or.inr (Or.inl hx))
  have h3 : et ∉ pipelineEvents := fun hx => h (Or.inr (Or.inr hx))
  unfold formatBody
  cases ha : payload.getD "resource" (.obj []) with
  | error e => right; exact ⟨e, by simp [bind, Except.bind, ha]⟩
  | ok resource =>
    cases hb : payload.getD "resourceContainers" (.obj []) with
    | error e => right; exact ⟨e, by simp [bind, Except.bind, ha, hb]⟩
    | ok rcs =>
      cases hc : rcs.getD "project" (.obj []) with
      | error e => right; exact ⟨e, by simp [bind, Except.bind, ha, hb, hc]⟩
      | ok projObj =>
        cases hd : projObj.get "name" with
        | error e => right; exact ⟨e, by simp [bind, Except.bind, ha, hb, hc, hd]⟩
        | ok projName =>
          by_cases he : (projName.truthy : Bool)
          · left
            simp [bind, Except.bind, ha, hb, hc, hd, he, h1, h2, h3, pure, Except.pure]
          · cases hf : resource.getD "teamProject" (.str "") with
            | error e =>
              right
              exact ⟨e, by simp [bind, Except.bind, ha, hb, hc, hd, he, hf]⟩
            | ok tp =>
              left
              simp [bind, Except.bind, ha, hb, hc, hd, he, hf, h1, h2, h3,
                pure, Except.pure]

/-- C10: `format_webhook` is total — for any event type and payload it
returns an optional notification and never propagates an exception; an
event type outside the handled pull-request, work-item and pipeline
families yields `none`; a handled event type whose payload makes the
extraction raise also yields `none` (the `except` clause swallows it);
and any non-`none` result comes from a handled event type whose
extraction succeeded. -/
theorem c10_format_webhook_total (avatarFn : Json → Option String) (et : String)
    (payload : Json) :
    (¬ HandledEvent et → formatWebhook avatarFn et payload = none) ∧
    (∀ e, formatBody avatarFn et payload = .error e →
       formatWebhook avatarFn et payload = none) ∧
    (∀ n, formatWebhook avatarFn et payload = some n →
       HandledEvent et ∧ formatBody avatarFn et payload = .ok (some n)) := by
  refine ⟨?_, ?_, ?_⟩
  · intro h
    rcases formatBody_unhandled avatarFn et payload h with hb | ⟨e, hb⟩ <;>
      simp [formatWebhook, hb]
  · intro e hb
    simp [formatWebhook, hb]
  · intro n hn
    by_cases h : HandledEvent et
    · refine ⟨h, ?_⟩
      unfold formatWebhook at hn
      cases hb : formatBody avatarFn et payload with
      | error e => rw [hb] at hn; simp at hn
      | ok o => rw [hb] at hn; simp at hn; rw [hn]
    · rcases formatBody_unhandled avatarFn et payload h with hb | ⟨e, hb⟩ <;>
        simp [formatWebhook, hb] at hn

/-- Witness for C10: an unhandled event type gives `none`, and so does a
pull-request event whose `resource` is a string (the extraction raises
`AttributeError`, which `format_webhook` swallows). -/
theorem c10_format_webhook_total_witness :
    formatWebhook (fun _ => none) "unknown.event.type" (.obj []) = none ∧
    formatWebhook (fun _ => none) "git.pullrequest.created"
      (.obj [("resource", .str "bogus")]) = none :=
  ⟨(c10_format_webhook_total (fun _ => none) "unknown.event.type" (.obj [])).1
      (by decide),
   (c10_format_webhook_total (fun _ => none) "git.pullrequest.created"
      (.obj [("resource", .str "bogus")])).2.1
      "AttributeError: get on non-dict" rfl⟩

/-!  Claim C5 — callback-url uniqueness across register/update sequences. -/

theorem mem_dictInsert (s : Store) (k : Nat) (v : ClientRec) :
    ∀ p ∈ dictInsert s k v, p ∈ s ∨ p = (k, v) := by
  induction s with
  | nil => intro p hp; simpa [dictInsert] using hp
  | cons hd t ih =>
    obtain ⟨k1, v1⟩ := hd
    intro p hp
    by_cases hk : k1 = k
    · simp only [dictInsert, hk, if_pos] at hp
      rcases List.mem_cons.mp hp with rfl | hp
      · right; rfl
      · left; exact List.mem_cons_of_mem _ hp
    · simp only [dictInsert, hk, if_neg, not_false_iff] at hp
      rcases List.mem_cons.mp hp with rfl | hp
      · left; exact List.mem_cons_self _ _
      · rcases ih p hp with h | h
        · left; exact List.mem_cons_of_mem _ h
        · right; exact h

theorem dictInsert_of_lookup_none (s : Store) (k : Nat) (v : ClientRec)
    (h : dictLookup s k = none) : dictInsert s k v = s ++ [(k, v)] := by
  induction s with
  | nil => simp [dictInsert]
  | cons hd t ih =>
    obtain ⟨k1, v1⟩ := hd
    by_cases hk : k1 = k
    · simp [dictLookup, hk] at h
    · simp [dictLookup, hk] at h
      simp [dictInsert, hk, ih h]

theorem mem_of_dictLookup (s : Store) (k : Nat) (c : ClientRec)
    (h : dictLookup s k = some c) : (k, c) ∈ s := by
  induction s with
  | nil => simp [dictLookup] at h
  | cons hd t ih =>
    obtain ⟨k1, v1⟩ := hd
    by_cases hk : k1 = k
    · simp [dictLookup, hk] at h
      simp [hk, h]
    · simp [dictLookup, hk] at h
      exact List.mem_cons_of_mem _ (ih h)

theorem dictLookup_of_mem_nodup (s : Store) (k : Nat) (c : ClientRec)
    (hnodup : (s.map Prod.fst).Nodup) (hmem : (k, c) ∈ s) :
    dictLookup s k = some c := by
  induction s with
  | nil => simp at hmem
  | cons hd t ih =>
    obtain ⟨k1, v1⟩ := hd
    simp only [List.map_cons, List.nodup_cons] at hnodup
    rcases List.mem_cons.mp hmem with heq | hmem2
    · injection heq with h1 h2
      subst h1
      subst h2
      simp [dictLookup]
    · by_cases hk : k1 = k
      · exfalso
        apply hnodup.1
        subst hk
        exact List.mem_map_of_mem Prod.fst hmem2
      · simp [dictLookup, hk, ih hnodup.2 hmem2]

theorem map_fst_dictInsert_of_lookup (s : Store) (k : Nat) (v c : ClientRec)
    (h : dictLookup s k = some c) :
    (dictInsert s k v).map Prod.fst = s.map Prod.fst := by
  induction s with
  | nil => simp [dictLookup] at h
  | cons hd t ih =>
    obtain ⟨k1, v1⟩ := hd
    by_cases hk : k1 = k
    · simp [dictInsert, hk]
    · simp [dictLookup, hk] at h
      simp [dictInsert, hk, ih h]

theorem getClientByCallback_none_iff (s : Store) (url : String) :
    getClientByCallback s url = none ↔ ∀ p ∈ s, (p : Nat × ClientRec).2.callback_url ≠ url := by
  induction s with
  | nil => simp [getClientByCallback]
  | cons hd t ih =>
    obtain ⟨k1, v1⟩ := hd
    by_cases hu : v1.callback_url = url
    · simp [getClientByCallback, hu]
    · simp [getClientByCallback, hu, ih]

theorem getClientByCallback_mem (s : Store) (url : String) (c : ClientRec)
    (h : getClientByCallback s url = some c) :
    (∃ k, (k, c) ∈ s) ∧ c.callback_url = url := by
  induction s with
  | nil => simp [getClientByCallback] at h
  | cons hd t ih =>
    obtain ⟨k1, v1⟩ := hd
    by_cases hu : v1.callback_url = url
    · simp only [getClientByCallback, hu, if_pos] at h
      cases h
      exact ⟨⟨k1, List.mem_cons_self _ _⟩, hu⟩
    · simp only [getClientByCallback, hu, if_neg, not_false_iff] at h
      obtain ⟨⟨k, hk⟩, hcurl⟩ := ih h
      exact ⟨⟨k, List.mem_cons_of_mem _ hk⟩, hcurl⟩

theorem urls_dictInsert_of_mem (s : Store) (k : Nat) (c v : ClientRec)
    (hnodup : (s.map Prod.fst).Nodup) (hmem : (k, c) ∈ s)
    (hurl : v.callback_url = c.callback_url)
    (hp : s.Pairwise (fun a b => a.2.callback_url ≠ b.2.callback_url)) :
    (dictInsert s k v).Pairwise (fun a b => a.2.callback_url ≠ b.2.callback_url) := by
  induction s with
  | nil => simp at hmem
  | cons hd t ih =>
    obtain ⟨k1, v1⟩ := hd
    simp only [List.map_cons, List.nodup_cons] at hnodup
    rcases List.pairwise_cons.mp hp with ⟨hhead, htail⟩
    by_cases hk : k1 = k
    · subst hk
      have hc : c = v1 := by
        rcases List.mem_cons.mp hmem with heq | hmem2
        · exact congrArg Prod.snd heq
        · exact absurd (List.mem_map_of_mem Prod.fst hmem2) hnodup.1
      subst hc
      simp only [dictInsert, if_pos rfl]
      exact List.pairwise_cons.mpr ⟨fun b hb => hurl ▸ hhead b hb, htail⟩
    · have hmem2 : (k, c) ∈ t := by
        rcases List.mem_cons.mp hmem with heq | hmem2
        · exact absurd (congrArg Prod.fst heq).symm hk
        · exact hmem2
      simp only [dictInsert, hk, if_neg, not_false_iff]
      refine List.pairwise_cons.mpr ⟨?_, ih hnodup.2 hmem2 htail⟩
      intro b hb
      rcases mem_dictInsert t k v b hb with h1 | h1
      · exact hhead b h1
      · subst h1
        simpa [hurl] using hhead (k, c) hmem2

theorem dictLookup_none_of_bound (s : Store) (m : Nat)
    (h : ∀ p ∈ s, (p : Nat × ClientRec).1 < m) : dictLookup s m = none := by
  cases hl : dictLookup s m with
  | none => rfl
  | some c => exact absurd (h (m, c) (mem_of_dictLookup s m c hl)) (by simp)

theorem regInv_applyOp (st : RegState) (op : RegOp) (h : RegInv st) :
    RegInv (applyOp st op) := by
  cases op with
  | register req now =>
    show RegInv (registerClient st req now).1
    unfold registerClient
    cases hc : getClientByCallback st.clients req.callback_url with
    | some c =>
      obtain ⟨⟨k, hk⟩, hcurl⟩ := getClientByCallback_mem _ _ _ hc
      have hkid : c.id = k := h.keyid (k, c) hk
      have hmem : (c.id, c) ∈ st.clients := hkid ▸ hk
      have hlook : dictLookup st.clients c.id = some c :=
        dictLookup_of_mem_nodup _ _ _ h.nodup hmem
      simp only
      constructor
      · rw [map_fst_dictInsert_of_lookup _ _ _ _ hlook]; exact h.nodup
      · intro p hp
        rcases mem_dictInsert _ _ _ p hp with h1 | h1
        · exact h.keyid p h1
        · subst h1; rfl
      · exact urls_dictInsert_of_mem _ _ _ _ h.nodup hmem rfl h.urls
      · intro p hp
        rcases mem_dictInsert _ _ _ p hp with h1 | h1
        · exact h.bound p h1
        · subst h1; exact h.bound (c.id, c) hmem
    | none =>
      have hnone : dictLookup st.clients st.nextId = none :=
        dictLookup_none_of_bound _ _ h.bound
      simp only
      rw [dictInsert_of_lookup_none _ _ _ hnone]
      have hurlnone := (getClientByCallback_none_iff st.clients req.callback_url).mp hc
      constructor
      · rw [List.map_append]
        rw [List.nodup_append]
        refine ⟨h.nodup, by simp, ?_⟩
        intro a ha hb
        simp only [List.map_cons, List.map_nil, List.mem_singleton] at hb
        subst hb
        obtain ⟨p, hp, hpf⟩ := List.mem_map.mp ha
        exact absurd (hpf ▸ h.bound p hp) (by simp)
      · intro p hp
        rcases List.mem_append.mp hp with h1 | h1
        · exact h.keyid p h1
        · simp only [List.mem_singleton] at h1; subst h1; rfl
      · rw [List.pairwise_append]
        refine ⟨h.urls, by simp, ?_⟩
        intro a ha b hb
        simp only [List.mem_singleton] at hb
        subst hb
        exact hurlnone a ha
      · intro p hp
        rcases List.mem_append.mp hp with h1 | h1
        · exact Nat.lt_succ_of_lt (h.bound p h1)
        · simp only [List.mem_singleton] at h1; subst h1
          exact Nat.lt_succ_self _
  | updateSubs id subs =>
    show RegInv (updateSubscriptions st id subs)
    unfold updateSubscriptions
    cases hl : dictLookup st.clients id with
    | none => exact h
    | some c =>
      have hmem : (id, c) ∈ st.clients := mem_of_dictLookup _ _ _ hl
      have hkid : c.id = id := h.keyid (id, c) hmem
      simp only
      constructor
      · rw [map_fst_dictInsert_of_lookup _ _ _ _ hl]; exact h.nodup
      · intro p hp
        rcases mem_dictInsert _ _ _ p hp with h1 | h1
        · exact h.keyid p h1
        · subst h1; exact hkid
      · exact urls_dictInsert_of_mem _ _ _ _ h.nodup hmem rfl h.urls
      · intro p hp
        rcases mem_dictInsert _ _ _ p hp with h1 | h1
        · exact h.bound p h1
        · subst h1; exact h.bound (id, c) hmem

theorem regInv_applyOps (ops : List RegOp) : RegInv (applyOps ops) := by
  have gen : ∀ (st : RegState), RegInv st → RegInv (ops.foldl applyOp st) := by
    induction ops with
    | nil => intro st h; exact h
    | cons op rest ih => intro st h; exact ih _ (regInv_applyOp st op h)
  unfold applyOps
  exact gen _ (by refine ⟨?_, ?_, ?_, ?_⟩ <;> simp)

theorem filter_url_length_le_one (l : Store) (url : String)
    (hp : l.Pairwise (fun a b => a.2.callback_url ≠ b.2.callback_url))
    (hall : ∀ p ∈ l, (p : Nat × ClientRec).2.callback_url = url) : l.length ≤ 1 := by
  match l, hp with
  | [], _ => simp
  | [a], _ => simp
  | a :: b :: t, hp =>
    exfalso
    have hab := (List.pairwise_cons.mp hp).1 b (List.mem_cons_self _ _)
    exact hab ((hall a (by simp)).trans (hall b (by simp)).symm)

/-- C5: starting from the empty registry, any sequence of register and
subscription-update operations keeps at most one active record per
`callback_url`; re-registering a stored `callback_url` updates in place
(same record count, same id), while a fresh `callback_url` adds exactly
one record. -/
theorem c5_callback_url_unique (ops : List RegOp) :
    (∀ url, (((applyOps ops).clients.filter
        (fun p => p.2.active && (p.2.callback_url == url))).length ≤ 1)) ∧
    (∀ req now c,
       getClientByCallback (applyOps ops).clients req.callback_url = some c →
         (registerClient (applyOps ops) req now).1.clients.length =
           (applyOps ops).clients.length ∧
         (registerClient (applyOps ops) req now).2.id = c.id) ∧
    (∀ req now,
       getClientByCallback (applyOps ops).clients req.callback_url = none →
         (registerClient (applyOps ops) req now).1.clients.length =
           (applyOps ops).clients.length + 1) := by
  have hinv := regInv_applyOps ops
  refine ⟨?_, ?_, ?_⟩
  · intro url
    apply filter_url_length_le_one _ url
    · exact List.Pairwise.sublist (List.filter_sublist _) hinv.urls
    · intro p hp
      have := (List.mem_filter.mp hp).2
      simp only [Bool.and_eq_true, beq_iff_eq] at this
      exact this.2
  · intro req now c hc
    obtain ⟨⟨k, hk⟩, _⟩ := getClientByCallback_mem _ _ _ hc
    have hkid : c.id = k := hinv.keyid (k, c) hk
    have hmem : (c.id, c) ∈ (applyOps ops).clients := hkid ▸ hk
    have hlook : dictLookup (applyOps ops).clients c.id = some c :=
      dictLookup_of_mem_nodup _ _ _ hinv.nodup hmem
    unfold registerClient
    rw [hc]
    exact ⟨length_dictInsert_of_lookup _ _ _ _ hlook, rfl⟩
  · intro req now hc
    have hnone : dictLookup (applyOps ops).clients (applyOps ops).nextId = none :=
      dictLookup_none_of_bound _ _ hinv.bound
    unfold registerClient
    rw [hc]
    exact length_dictInsert_of_none _ _ _ hnone

/-- Witness for C5: two registrations with distinct urls followed by a
re-registration of the first url keep the count at two and preserve the
original record's id. -/
theorem c5_callback_url_unique_witness :
    (registerClient
        (applyOps [.register ⟨"A", "http://a", "u1", "Alice", ["pr"]⟩ "t0",
                   .register ⟨"B", "http://b", "u2", "Bob", ["pr"]⟩ "t1"])
        ⟨"A2", "http://a", "u1", "Alice", ["all"]⟩ "t2").1.clients.length =
      (applyOps [.register ⟨"A", "http://a", "u1", "Alice", ["pr"]⟩ "t0",
                 .register ⟨"B", "http://b", "u2", "Bob", ["pr"]⟩ "t1"]).clients.length ∧
    (registerClient
        (applyOps [.register ⟨"A", "http://a", "u1", "Alice", ["pr"]⟩ "t0",
                   .register ⟨"B", "http://b", "u2", "Bob", ["pr"]⟩ "t1"])
        ⟨"A2", "http://a", "u1", "Alice", ["all"]⟩ "t2").2.id =
      (makeClient 0 ⟨"A", "http://a", "u1", "Alice", ["pr"]⟩ "t0").id :=
  (c5_callback_url_unique
      [.register ⟨"A", "http://a", "u1", "Alice", ["pr"]⟩ "t0",
       .register ⟨"B", "http://b", "u2", "Bob", ["pr"]⟩ "t1"]).2.1
    ⟨"A2", "http://a", "u1", "Alice", ["all"]⟩ "t2"
    (makeClient 0 ⟨"A", "http://a", "u1", "Alice", ["pr"]⟩ "t0") rfl

/-!  Claim C8 — log reading. -/

theorem stream_cons_blank (parse : String → Option Json) (etF cidF : Option String)
    (l : String) (rest : List String) (hb : pyStrip l = "") :
    logsFilteredStream parse etF cidF (l :: rest) =
      logsFilteredStream parse etF cidF rest := by
  simp [logsFilteredStream, hb]

theorem stream_cons_unparsed (parse : String → Option Json) (etF cidF : Option String)
    (l : String) (rest : List String) (hb : ¬ pyStrip l = "")
    (hp : parse (pyStrip l) = none) :
    logsFilteredStream parse etF cidF (l :: rest) =
      logsFilteredStream parse etF cidF rest := by
  simp [logsFilteredStream, hb, hp]

theorem stream_cons_err1 (parse : String → Option Json) (etF cidF : Option String)
    (l : String) (rest : List String) (entry : Json) (e : String)
    (hb : ¬ pyStrip l = "") (hp : parse (pyStrip l) = some entry)
    (hm1 : logFilterMatches etF "event_type" entry = .error e) :
    logsFilteredStream parse etF cidF (l :: rest) = .error e := by
  simp [logsFilteredStream, hb, hp, hm1, bind, Except.bind]

theorem stream_cons_skip1 (parse : String → Option Json) (etF cidF : Option String)
    (l : String) (rest : List String) (entry : Json)
    (hb : ¬ pyStrip l = "") (hp : parse (pyStrip l) = some entry)
    (hm1 : logFilterMatches etF "event_type" entry = .ok false) :
    logsFilteredStream parse etF cidF (l :: rest) =
      logsFilteredStream parse etF cidF rest := by
  simp [logsFilteredStream, hb, hp, hm1, bind, Except.bind]

theorem stream_cons_err2 (parse : String → Option Json) (etF cidF : Option String)
    (l : String) (rest : List String) (entry : Json) (e : String)
    (hb : ¬ pyStrip l = "") (hp : parse (pyStrip l) = some entry)
    (hm1 : logFilterMatches etF "event_type" entry = .ok true)
    (hm2 : logFilterMatches cidF "client_id" entry = .error e) :
    logsFilteredStream parse etF cidF (l :: rest) = .error e := by
  simp [logsFilteredStream, hb, hp, hm1, hm2, bind, Except.bind]

theorem stream_cons_skip2 (parse : String → Option Json) (etF cidF : Option String)
    (l : String) (rest : List String) (entry : Json)
    (hb : ¬ pyStrip l = "") (hp : parse (pyStrip l) = some entry)
    (hm1 : logFilterMatches etF "event_type" entry = .ok true)
    (hm2 : logFilterMatches cidF "client_id" entry = .ok false) :
    logsFilteredStream parse etF cidF (l :: rest) =
      logsFilteredStream parse etF cidF rest := by
  simp [logsFilteredStream, hb, hp, hm1, hm2, bind, Except.bind]

theorem stream_cons_keep (parse : String → Option Json) (etF cidF : Option String)
    (l : String) (rest : List String) (entry : Json)
    (hb : ¬ pyStrip l = "") (hp : parse (pyStrip l) = some entry)
    (hm1 : logFilterMatches etF "event_type" entry = .ok true)
    (hm2 : logFilterMatches cidF "client_id" entry = .ok true) :
    logsFilteredStream parse etF cidF (l :: rest) =
      (logsFilteredStream parse etF cidF rest).map (fun tl => entry :: tl) := by
  cases h : logsFilteredStream parse etF cidF rest <;>
    simp [logsFilteredStream, hb, hp, hm1, hm2, bind, Except.bind, h, Except.map,
      pure, Except.pure]

theorem goLines_cons_blank (parse : String → Option Json) (limit : Nat)
    (etF cidF : Option String) (l : String) (rest : List String) (acc : List Json)
    (hb : pyStrip l = "") :
    logsGoLines parse limit etF cidF (l :: rest) acc =
      logsGoLines parse limit etF cidF rest acc := by
  simp [logsGoLines, hb]

theorem goLines_cons_unparsed (parse : String → Option Json) (limit : Nat)
    (etF cidF : Option String) (l : String) (rest : List String) (acc : List Json)
    (hb : ¬ pyStrip l = "") (hp : parse (pyStrip l) = none) :
    logsGoLines parse limit etF cidF (l :: rest) acc =
      logsGoLines parse limit etF cidF rest acc := by
  simp [logsGoLines, hb, hp]

theorem goLines_cons_err1 (parse : String → Option Json) (limit : Nat)
    (etF cidF : Option String) (l : String) (rest : List String) (acc : List Json)
    (entry : Json) (e : String)
    (hb : ¬ pyStrip l = "") (hp : parse (pyStrip l) = some entry)
    (hm1 : logFilterMatches etF "event_type" entry = .error e) :
    logsGoLines parse limit etF cidF (l :: rest) acc = .error e := by
  simp [logsGoLines, hb, hp, hm1, bind, Except.bind]

theorem goLines_cons_skip1 (parse : String → Option Json) (limit : Nat)
    (etF cidF : Option String) (l : String) (rest : List String) (acc : List Json)
    (entry : Json)
    (hb : ¬ pyStrip l = "") (hp : parse (pyStrip l) = some entry)
    (hm1 : logFilterMatches etF "event_type" entry = .ok false) :
    logsGoLines parse limit etF cidF (l :: rest) acc =
      logsGoLines parse limit etF cidF rest acc := by
  simp [logsGoLines, hb, hp, hm1, bind, Except.bind]

theorem goLines_cons_err2 (parse : String → Option Json) (limit : Nat)
    (etF cidF : Option String) (l : String) (rest : List String) (acc : List Json)
    (entry : Json) (e : String)
    (hb : ¬ pyStrip l = "") (hp : parse (pyStrip l) = some entry)
    (hm1 : logFilterMatches etF "event_type" entry = .ok true)
    (hm2 : logFilterMatches cidF "client_id" entry = .error e) :
    logsGoLines parse limit etF cidF (l :: rest) acc = .error e := by
  simp [logsGoLines, hb, hp, hm1, hm2, bind, Except.bind]

theorem goLines_cons_skip2 (parse : String → Option Json) (limit : Nat)
    (etF cidF : Option String) (l : String) (rest : List String) (acc : List Json)
    (entry : Json)
    (hb : ¬ pyStrip l = "") (hp : parse (pyStrip l) = some entry)
    (hm1 : logFilterMatches etF "event_type" entry = .ok true)
    (hm2 : logFilterMatches cidF "client_id" entry = .ok false) :
    logsGoLines parse limit etF cidF (l :: rest) acc =
      logsGoLines parse limit etF cidF rest acc := by
  simp [logsGoLines, hb, hp, hm1, hm2, bind, Except.bind]

theorem goLines_cons_keep (parse : String → Option Json) (limit : Nat)
    (etF cidF : Option String) (l : String) (rest : List String) (acc : List Json)
    (entry : Json)
    (hb : ¬ pyStrip l = "") (hp : parse (pyStrip l) = some entry)
    (hm1 : logFilterMatches etF "event_type" entry = .ok true)
    (hm2 : logFilterMatches cidF "client_id" entry = .ok true) :
    logsGoLines parse limit etF cidF (l :: rest) acc =
      (if (acc ++ [entry]).length ≥ limit then .ok (acc ++ [entry], true)
       else logsGoLines parse limit etF cidF rest (acc ++ [entry])) := by
  by_cases hge : (acc ++ [entry]).length ≥ limit <;>
    simp [logsGoLines, hb, hp, hm1, hm2, bind, Except.bind, hge]

theorem logsFilteredStream_append (parse : String → Option Json)
    (etF cidF : Option String) :
    ∀ (l1 l2 : List String) (fl : List Json),
      logsFilteredStream parse etF cidF (l1 ++ l2) = .ok fl →
      ∃ f1 f2, logsFilteredStream parse etF cidF l1 = .ok f1 ∧
        logsFilteredStream parse etF cidF l2 = .ok f2 ∧ fl = f1 ++ f2 := by
  intro l1
  induction l1 with
  | nil =>
    intro l2 fl h
    exact ⟨[], fl, rfl, by simpa using h, rfl⟩
  | cons l rest ih =>
    intro l2 fl h
    rw [List.cons_append] at h
    by_cases hb : pyStrip l = ""
    · rw [stream_cons_blank parse etF cidF l (rest ++ l2) hb] at h
      obtain ⟨f1, f2, h1, h2, rfl⟩ := ih l2 fl h
      exact ⟨f1, f2, by rw [stream_cons_blank parse etF cidF l rest hb, h1], h2, rfl⟩
    · cases hp : parse (pyStrip l) with
      | none =>
        rw [stream_cons_unparsed parse etF cidF l (rest ++ l2) hb hp] at h
        obtain ⟨f1, f2, h1, h2, rfl⟩ := ih l2 fl h
        exact ⟨f1, f2,
          by rw [stream_cons_unparsed parse etF cidF l rest hb hp, h1], h2, rfl⟩
      | some entry =>
        cases hm1 : logFilterMatches etF "event_type" entry with
        | error e =>
          rw [stream_cons_err1 parse etF cidF l (rest ++ l2) entry e hb hp hm1] at h
          cases h
        | ok b1 =>
          cases b1 with
          | false =>
            rw [stream_cons_skip1 parse etF cidF l (rest ++ l2) entry hb hp hm1] at h
            obtain ⟨f1, f2, h1, h2, rfl⟩ := ih l2 fl h
            exact ⟨f1, f2,
              by rw [stream_cons_skip1 parse etF cidF l rest entry hb hp hm1, h1],
              h2, rfl⟩
          | true =>
            cases hm2 : logFilterMatches cidF "client_id" entry with
            | error e =>
              rw [stream_cons_err2 parse etF cidF l (rest ++ l2) entry e hb hp
                hm1 hm2] at h
              cases h
            | ok b2 =>
              cases b2 with
              | false =>
                rw [stream_cons_skip2 parse etF cidF l (rest ++ l2) entry hb hp
                  hm1 hm2] at h
                obtain ⟨f1, f2, h1, h2, rfl⟩ := ih l2 fl h
                exact ⟨f1, f2,
                  by rw [stream_cons_skip2 parse etF cidF l rest entry hb hp hm1 hm2,
                    h1], h2, rfl⟩
              | true =>
                rw [stream_cons_keep parse etF cidF l (rest ++ l2) entry hb hp
                  hm1 hm2] at h
                cases htl : logsFilteredStream parse etF cidF (rest ++ l2) with
                | error e => rw [htl] at h; cases h
                | ok tl =>
                  rw [htl] at h
                  simp only [Except.map, Except.ok.injEq] at h
                  obtain ⟨f1, f2, h1, h2, rfl⟩ := ih l2 tl htl
                  refine ⟨entry :: f1, f2, ?_, h2, by simp [h]⟩
                  rw [stream_cons_keep parse etF cidF l rest entry hb hp hm1 hm2, h1]
                  rfl

theorem logsGoLines_spec (parse : String → Option Json) (limit : Nat)
    (etF cidF : Option String) :
    ∀ (lines : List String) (acc : List Json) (fl : List Json),
      acc.length < limit →
      logsFilteredStream parse etF cidF lines = .ok fl →
      logsGoLines parse limit etF cidF lines acc =
        .ok ((acc ++ fl).take limit, decide (limit ≤ (acc ++ fl).length)) := by
  intro lines
  induction lines with
  | nil =>
    intro acc fl hacc h
    simp only [logsFilteredStream, Except.ok.injEq] at h
    subst h
    simp only [logsGoLines, List.append_nil]
    rw [List.take_all_of_le (Nat.le_of_lt hacc)]
    simp [Nat.not_le_of_lt hacc]
  | cons l rest ih =>
    intro acc fl hacc h
    by_cases hb : pyStrip l = ""
    · rw [stream_cons_blank parse etF cidF l rest hb] at h
      rw [goLines_cons_blank parse limit etF cidF l rest acc hb]
      exact ih acc fl hacc h
    · cases hp : parse (pyStrip l) with
      | none =>
        rw [stream_cons_unparsed parse etF cidF l rest hb hp] at h
        rw [goLines_cons_unparsed parse limit etF cidF l rest acc hb hp]
        exact ih acc fl hacc h
      | some entry =>
        cases hm1 : logFilterMatches etF "event_type" entry with
        | error e =>
          rw [stream_cons_err1 parse etF cidF l rest entry e hb hp hm1] at h
          cases h
        | ok b1 =>
          cases b1 with
          | false =>
            rw [stream_cons_skip1 parse etF cidF l rest entry hb hp hm1] at h
            rw [goLines_cons_skip1 parse limit etF cidF l rest acc entry hb hp hm1]
            exact ih acc fl hacc h
          | true =>
            cases hm2 : logFilterMatches cidF "client_id" entry with
            | error e =>
              rw [stream_cons_err2 parse etF cidF l rest entry e hb hp hm1 hm2] at h
              cases h
            | ok b2 =>
              cases b2 with
              | false =>
                rw [stream_cons_skip2 parse etF cidF l rest entry hb hp hm1 hm2] at h
                rw [goLines_cons_skip2 parse limit etF cidF l rest acc entry hb hp
                  hm1 hm2]
                exact ih acc fl hacc h
              | true =>
                rw [stream_cons_keep parse etF cidF l rest entry hb hp hm1 hm2] at h
                rw [goLines_cons_keep parse limit etF cidF l rest acc entry hb hp
                  hm1 hm2]
                cases htl : logsFilteredStream parse etF cidF rest with
                | error e => rw [htl] at h; cases h
                | ok tl =>
                  rw [htl] at h
                  simp only [Except.map, Except.ok.injEq] at h
                  subst h
                  have hassoc : acc ++ entry :: tl = (acc ++ [entry]) ++ tl := by
                    simp
                  by_cases hge : (acc ++ [entry]).length ≥ limit
                  · have hlen : (acc ++ [entry]).length = limit := by
                      simp only [List.length_append, List.length_singleton] at hge ⊢
                      omega
                    rw [if_pos hge, hassoc]
                    rw [List.take_append_of_le_length (le_of_eq hlen.symm)]
                    rw [List.take_all_of_le (le_of_eq hlen)]
                    have hfin : limit ≤ ((acc ++ [entry]) ++ tl).length := by
                      rw [List.length_append, hlen]
                      exact Nat.le_add_right _ _
                    rw [decide_eq_true hfin]
                  · rw [if_neg hge, hassoc]
                    exact ih (acc ++ [entry]) tl (Nat.lt_of_not_le hge) htl

theorem logsGoFiles_spec (parse : String → Option Json) (limit : Nat)
    (etF cidF : Option String) :
    ∀ (files : List (List String)) (acc : List Json) (fl : List Json),
      acc.length < limit →
      logsFilteredStream parse etF cidF ((files.map List.reverse).join) = .ok fl →
      logsGoFiles parse limit etF cidF files acc = .ok ((acc ++ fl).take limit) := by
  intro files
  induction files with
  | nil =>
    intro acc fl hacc h
    simp only [List.map_nil, List.join_nil, logsFilteredStream,
      Except.ok.injEq] at h
    subst h
    simp only [logsGoFiles, List.append_nil]
    rw [List.take_all_of_le (Nat.le_of_lt hacc)]
  | cons lines restFiles ih =>
    intro acc fl hacc h
    simp only [List.map_cons, List.join_cons] at h
    obtain ⟨f1, f2, h1, h2, rfl⟩ :=
      logsFilteredStream_append parse etF cidF _ _ fl h
    simp only [logsGoFiles, bind, Except.bind]
    rw [logsGoLines_spec parse limit etF cidF lines.reverse acc f1 hacc h1]
    by_cases hge : limit ≤ (acc ++ f1).length
    · rw [decide_eq_true hge]
      have hres : (acc ++ (f1 ++ f2)).take limit = (acc ++ f1).take limit := by
        rw [← List.append_assoc, List.take_append_of_le_length hge]
      rw [hres]
      simp
    · have hlt : (acc ++ f1).length < limit := Nat.lt_of_not_le hge
      rw [decide_eq_false hge]
      rw [List.take_all_of_le (Nat.le_of_lt hlt)]
      have hres : acc ++ (f1 ++ f2) = (acc ++ f1) ++ f2 := by simp
      rw [hres]
      simpa using ih (acc ++ f1) f2 hlt h2

theorem logsGoLines_bound (parse : String → Option Json) (limit : Nat)
    (etF cidF : Option String) :
    ∀ (lines : List String) (acc res : List Json) (stop : Bool),
      acc.length < limit →
      logsGoLines parse limit etF cidF lines acc = .ok (res, stop) →
      (stop = true → res.length = limit) ∧ (stop = false → res.length < limit) := by
  intro lines
  induction lines with
  | nil =>
    intro acc res stop hacc h
    simp only [logsGoLines, Except.ok.injEq, Prod.mk.injEq] at h
    obtain ⟨h1, h2⟩ := h
    subst h1
    subst h2
    constructor
    · intro hc
      exact absurd hc (by decide)
    · intro hst
      exact hacc
  | cons l rest ih =>
    intro acc res stop hacc h
    by_cases hb : pyStrip l = ""
    · rw [goLines_cons_blank parse limit etF cidF l rest acc hb] at h
      exact ih acc res stop hacc h
    · cases hp : parse (pyStrip l) with
      | none =>
        rw [goLines_cons_unparsed parse limit etF cidF l rest acc hb hp] at h
        exact ih acc res stop hacc h
      | some entry =>
        cases hm1 : logFilterMatches etF "event_type" entry with
        | error e =>
          rw [goLines_cons_err1 parse limit etF cidF l rest acc entry e hb hp hm1] at h
          cases h
        | ok b1 =>
          cases b1 with
          | false =>
            rw [goLines_cons_skip1 parse limit etF cidF l rest acc entry hb hp
              hm1] at h
            exact ih acc res stop hacc h
          | true =>
            cases hm2 : logFilterMatches cidF "client_id" entry with
            | error e =>
              rw [goLines_cons_err2 parse limit etF cidF l rest acc entry e hb hp
                hm1 hm2] at h
              cases h
            | ok b2 =>
              cases b2 with
              | false =>
                rw [goLines_cons_skip2 parse limit etF cidF l rest acc entry hb hp
                  hm1 hm2] at h
                exact ih acc res stop hacc h
              | true =>
                rw [goLines_cons_keep parse limit etF cidF l rest acc entry hb hp
                  hm1 hm2] at h
                by_cases hge : (acc ++ [entry]).length ≥ limit
                · rw [if_pos hge] at h
                  simp only [Except.ok.injEq, Prod.mk.injEq] at h
                  obtain ⟨h1, h2⟩ := h
                  subst h1
                  subst h2
                  have hlen : (acc ++ [entry]).length = limit := by
                    simp only [List.length_append, List.length_singleton] at hge ⊢
                    omega
                  constructor
                  · intro hst
                    exact hlen
                  · intro hc
                    exact absurd hc (by decide)
                · rw [if_neg hge] at h
                  exact ih (acc ++ [entry]) res stop (Nat.lt_of_not_le hge) h

theorem logsGoFiles_bound (parse : String → Option Json) (limit : Nat)
    (etF cidF : Option String) :
    ∀ (files : List (List String)) (acc res : List Json),
      acc.length < limit →
      logsGoFiles parse limit etF cidF files acc = .ok res →
      res.length ≤ limit := by
  intro files
  induction files with
  | nil =>
    intro acc res hacc h
    simp only [logsGoFiles, Except.ok.injEq] at h
    subst h
    exact Nat.le_of_lt hacc
  | cons lines restFiles ih =>
    intro acc res hacc h
    simp only [logsGoFiles, bind, Except.bind] at h
    cases hl : logsGoLines parse limit etF cidF lines.reverse acc with
    | error e => rw [hl] at h; cases h
    | ok p =>
      obtain ⟨acc2, stop⟩ := p
      rw [hl] at h
      have hbounds := logsGoLines_bound parse limit etF cidF lines.reverse acc
        acc2 stop hacc hl
      cases stop with
      | true =>
        simp only [if_pos, Except.ok.injEq] at h
        subst h
        exact le_of_eq (hbounds.1 rfl)
      | false =>
        simp only [Bool.false_eq_true, if_neg, not_false_iff] at h
        exact ih acc2 res (hbounds.2 rfl) h

/-- C8 counterexample: one log file containing one matching line and
`limit = 0` — the bound `len(entries) >= limit` is only checked *after*
appending, so `get_logs` returns one entry, not at most zero. -/
theorem c8_limit_zero_counterexample :
    getLogs (fun _ => some (.obj [])) [["x"]] 0 none none = .ok [.obj []] ∧
    ¬ ([(Json.obj [] : Json)].length ≤ 0) := ⟨rfl, by decide⟩

/-- C8 (amended; for `limit ≥ 1`): `get_logs` walks the files
newest-first (as enumerated by `_log_files_newest_first`), each file's
lines in reverse order, skipping blank and unparseable lines and entries
failing the filters, and stops at `limit` entries: the result is at most
`limit` long, and when the whole filtered stream is readable the result
is exactly its first `limit` entries.  (For `limit = 0` the bound is
checked only after appending, so one entry can be returned.) -/
theorem c8_get_logs_take_limit (parse : String → Option Json)
    (files : List (List String)) (limit : Nat) (etF cidF : Option String)
    (hlim : 1 ≤ limit) :
    (∀ res, getLogs parse files limit etF cidF = .ok res → res.length ≤ limit) ∧
    (∀ fl, logsFilteredStream parse etF cidF ((files.map List.reverse).join) = .ok fl →
       getLogs parse files limit etF cidF = .ok (fl.take limit)) := by
  constructor
  · intro res h
    exact logsGoFiles_bound parse limit etF cidF files [] res hlim h
  · intro fl h
    have := logsGoFiles_spec parse limit etF cidF files [] fl hlim h
    simpa [getLogs] using this

/-- Witness for C8 at `limit = 2` over two files of one parseable line
each, plus one unparseable line: the result is the first two entries of
the filtered stream. -/
theorem c8_get_logs_take_limit_witness :
    getLogs (fun t => if t = "bad" then none else some (.obj [("line", .str t)]))
      [["a", "bad"], ["b"], ["c"]] 2 none none =
      .ok ([Json.obj [("line", .str "a")], .obj [("line", .str "b")],
            .obj [("line", .str "c")]].take 2) := by
  have h2 := (c8_get_logs_take_limit
    (fun t => if t = "bad" then none else some (.obj [("line", .str t)]))
    [["a", "bad"], ["b"], ["c"]] 2 none none (by decide)).2
  exact h2 [Json.obj [("line", .str "a")], .obj [("line", .str "b")],
    .obj [("line", .str "c")]] rfl

end Hermes
